import Mathlib

/-!
Shallow embedding of the per-primitive forward/backward math of the msplat
repository: the spherical-harmonics (SH) color evaluator
(`ComputeColorFromSHForwardCUDAKernel` / `ComputeColorFromSHBackwardCUDAKernel`)
and the 3D covariance builder (`compute_cov3d.cu`).  Machine `float`
arithmetic is modelled by exact rational arithmetic over `ℚ`; glm's
column-major matrix/vector conventions are embedded faithfully.
-/

namespace MSplat

/-- glm::vec3 over exact rationals. -/
structure Vec3 where
  x : ℚ
  y : ℚ
  z : ℚ
deriving DecidableEq, Repr

/-- glm::vec4 over exact rationals (used for quaternions, (r,x,y,z) layout). -/
structure Vec4 where
  x : ℚ
  y : ℚ
  z : ℚ
  w : ℚ
deriving DecidableEq, Repr

namespace Vec3

instance : Add Vec3 := ⟨fun u v => ⟨u.x + v.x, u.y + v.y, u.z + v.z⟩⟩

instance : Sub Vec3 := ⟨fun u v => ⟨u.x - v.x, u.y - v.y, u.z - v.z⟩⟩

instance : SMul ℚ Vec3 := ⟨fun a v => ⟨a * v.x, a * v.y, a * v.z⟩⟩

instance : Zero Vec3 := ⟨⟨0, 0, 0⟩⟩

/-- Component-wise `glm::dot`. -/
def dot (u v : Vec3) : ℚ := u.x * v.x + u.y * v.y + u.z * v.z

/-- Source `result += 0.5f`: add a scalar to every component. -/
def addScalar (v : Vec3) (a : ℚ) : Vec3 := ⟨v.x + a, v.y + a, v.z + a⟩

/-- Component-wise `glm::max(v, a)` against a scalar. -/
def maxScalar (v : Vec3) (a : ℚ) : Vec3 := ⟨max v.x a, max v.y a, max v.z a⟩

/-- Component selector (channel 0 = x, 1 = y, 2 = z). -/
def get (v : Vec3) (c : Fin 3) : ℚ :=
  if c.val = 0 then v.x else if c.val = 1 then v.y else v.z

end Vec3

/-- glm::mat3, stored as its three columns (glm is column-major:
`m[i]` is the i-th column, `m[i][j]` its j-th component). -/
structure Mat3 where
  c0 : Vec3
  c1 : Vec3
  c2 : Vec3
deriving DecidableEq, Repr

namespace Mat3

/-- glm `mat3 * vec3`: linear combination of the columns. -/
def mulVec (A : Mat3) (v : Vec3) : Vec3 := v.x • A.c0 + v.y • A.c1 + v.z • A.c2

/-- glm `mat3 * mat3`: column `i` of `A * B` is `A * B[i]`. -/
def mul (A B : Mat3) : Mat3 := ⟨A.mulVec B.c0, A.mulVec B.c1, A.mulVec B.c2⟩

instance : Mul Mat3 := ⟨Mat3.mul⟩

/-- glm `glm::transpose`. -/
def transpose (A : Mat3) : Mat3 :=
  ⟨⟨A.c0.x, A.c1.x, A.c2.x⟩, ⟨A.c0.y, A.c1.y, A.c2.y⟩, ⟨A.c0.z, A.c1.z, A.c2.z⟩⟩

/-- glm `scalar * mat3`. -/
def smul (a : ℚ) (A : Mat3) : Mat3 := ⟨a • A.c0, a • A.c1, a • A.c2⟩

instance : SMul ℚ Mat3 := ⟨Mat3.smul⟩

end Mat3

/-! ## Spherical-harmonics constants (`SH_C0` .. `SH_C3` of the source). -/

def SH_C0 : ℚ := 0.28209479177387814

def SH_C1 : ℚ := 0.4886025119029199

def SH_C2 : Fin 5 → ℚ :=
  ![1.0925484305920792,
    -1.0925484305920792,
    0.31539156525252005,
    -1.0925484305920792,
    0.5462742152960396]

def SH_C3 : Fin 7 → ℚ :=
  ![-0.5900435899266435,
    2.890611442640554,
    -0.4570457994644658,
    0.3731763325901154,
    -0.4570457994644658,
    1.445305721320277,
    -0.5900435899266435]

/-! ## SH forward pass (`ComputeColorFromSHForwardCUDAKernel`, device part).

The per-primitive body, with the pre-clamp accumulator split out as `shRaw`.
-/

/-- The pre-clamp SH accumulation of the forward kernel: the nested
`deg > 0 / deg > 1 / deg > 2` accumulation of basis terms, plus the
final `result += 0.5f`. -/
def shRaw (deg : ℕ) (dir : Vec3) (sh : ℕ → Vec3) : Vec3 :=
  let result := SH_C0 • sh 0
  let result :=
    if deg > 0 then
      let x := dir.x
      let y := dir.y
      let z := dir.z
      let result := result - (SH_C1 * y) • sh 1 + (SH_C1 * z) • sh 2 - (SH_C1 * x) • sh 3
      if deg > 1 then
        let xx := x * x
        let yy := y * y
        let zz := z * z
        let xy := x * y
        let yz := y * z
        let xz := x * z
        let result := result +
          (SH_C2 0 * xy) • sh 4 +
          (SH_C2 1 * yz) • sh 5 +
          (SH_C2 2 * (2 * zz - xx - yy)) • sh 6 +
          (SH_C2 3 * xz) • sh 7 +
          (SH_C2 4 * (xx - yy)) • sh 8
        if deg > 2 then
          result +
            (SH_C3 0 * (y * (3 * xx - yy))) • sh 9 +
            (SH_C3 1 * (xy * z)) • sh 10 +
            (SH_C3 2 * (y * (4 * zz - xx - yy))) • sh 11 +
            (SH_C3 3 * (z * (2 * zz - 3 * xx - 3 * yy))) • sh 12 +
            (SH_C3 4 * (x * (4 * zz - xx - yy))) • sh 13 +
            (SH_C3 5 * (z * (xx - yy))) • sh 14 +
            (SH_C3 6 * (x * (xx - 3 * yy))) • sh 15
        else result
      else result
    else result
  result.addScalar 0.5

/-- Device part of the SH forward kernel: returns the written color
`glm::max(result, 0.0f)` and the three clamp-mask booleans
`(result.x < 0, result.y < 0, result.z < 0)`. -/
def computeColorFromSH (deg : ℕ) (dir : Vec3) (sh : ℕ → Vec3) :
    Vec3 × (Bool × Bool × Bool) :=
  let result := shRaw deg dir sh
  (result.maxScalar 0,
    (decide (result.x < 0), decide (result.y < 0), decide (result.z < 0)))

/-! ## SH backward pass (`ComputeColorFromSHBackwardCUDAKernel`, device part). -/

/-- Number of SH coefficients written by the backward pass (and read by the
forward pass): the nested `deg > 0 / deg > 1 / deg > 2` branches consume
1, 4, 9 resp. 16 coefficients. -/
def writtenCount (deg : ℕ) : ℕ :=
  if deg > 2 then 16 else if deg > 1 then 9 else if deg > 0 then 4 else 1

/-- The per-coefficient factors `dRGBdsh0 .. dRGBdsh15` computed by the
backward kernel (identical to the factors multiplying `sh[k]` in the
forward accumulation). -/
def shBasisFn (dir : Vec3) : ℕ → ℚ
  | 0 => SH_C0
  | 1 => -SH_C1 * dir.y
  | 2 => SH_C1 * dir.z
  | 3 => -SH_C1 * dir.x
  | 4 => SH_C2 0 * (dir.x * dir.y)
  | 5 => SH_C2 1 * (dir.y * dir.z)
  | 6 => SH_C2 2 * (2 * (dir.z * dir.z) - dir.x * dir.x - dir.y * dir.y)
  | 7 => SH_C2 3 * (dir.x * dir.z)
  | 8 => SH_C2 4 * (dir.x * dir.x - dir.y * dir.y)
  | 9 => SH_C3 0 * (dir.y * (3 * (dir.x * dir.x) - dir.y * dir.y))
  | 10 => SH_C3 1 * (dir.x * dir.y * dir.z)
  | 11 => SH_C3 2 * (dir.y * (4 * (dir.z * dir.z) - dir.x * dir.x - dir.y * dir.y))
  | 12 => SH_C3 3 * (dir.z * (2 * (dir.z * dir.z) - 3 * (dir.x * dir.x) - 3 * (dir.y * dir.y)))
  | 13 => SH_C3 4 * (dir.x * (4 * (dir.z * dir.z) - dir.x * dir.x - dir.y * dir.y))
  | 14 => SH_C3 5 * (dir.z * (dir.x * dir.x - dir.y * dir.y))
  | 15 => SH_C3 6 * (dir.x * (dir.x * dir.x - 3 * (dir.y * dir.y)))
  | _ => 0

/-- The accumulator `dRGBdx` of the backward kernel (per-channel partial of
the SH sum w.r.t. `dir.x`). -/
def shDRGBdx (deg : ℕ) (dir : Vec3) (sh : ℕ → Vec3) : Vec3 :=
  if deg > 0 then
    let x := dir.x
    let y := dir.y
    let z := dir.z
    let acc := (-SH_C1) • sh 3
    if deg > 1 then
      let acc := acc +
        (SH_C2 0 * y) • sh 4 +
        (SH_C2 2 * 2 * (-x)) • sh 6 +
        (SH_C2 3 * z) • sh 7 +
        (SH_C2 4 * 2 * x) • sh 8
      if deg > 2 then
        acc +
          (SH_C3 0 * (3 * (2 * (x * y)))) • sh 9 +
          (SH_C3 1 * (y * z)) • sh 10 +
          (SH_C3 2 * (-2 * (x * y))) • sh 11 +
          (SH_C3 3 * (-3 * (2 * (x * z)))) • sh 12 +
          (SH_C3 4 * (-3 * (x * x) + 4 * (z * z) - y * y)) • sh 13 +
          (SH_C3 5 * (2 * (x * z))) • sh 14 +
          (SH_C3 6 * (3 * (x * x - y * y))) • sh 15
      else acc
    else acc
  else 0

/-- The accumulator `dRGBdy` of the backward kernel. -/
def shDRGBdy (deg : ℕ) (dir : Vec3) (sh : ℕ → Vec3) : Vec3 :=
  if deg > 0 then
    let x := dir.x
    let y := dir.y
    let z := dir.z
    let acc := (-SH_C1) • sh 1
    if deg > 1 then
      let acc := acc +
        (SH_C2 0 * x) • sh 4 +
        (SH_C2 1 * z) • sh 5 +
        (SH_C2 2 * 2 * (-y)) • sh 6 +
        (SH_C2 4 * 2 * (-y)) • sh 8
      if deg > 2 then
        acc +
          (SH_C3 0 * (3 * (x * x - y * y))) • sh 9 +
          (SH_C3 1 * (x * z)) • sh 10 +
          (SH_C3 2 * (-3 * (y * y) + 4 * (z * z) - x * x)) • sh 11 +
          (SH_C3 3 * (-3 * (2 * (y * z)))) • sh 12 +
          (SH_C3 4 * (-2 * (x * y))) • sh 13 +
          (SH_C3 5 * (-2 * (y * z))) • sh 14 +
          (SH_C3 6 * (-3 * (2 * (x * y)))) • sh 15
      else acc
    else acc
  else 0

/-- The accumulator `dRGBdz` of the backward kernel. -/
def shDRGBdz (deg : ℕ) (dir : Vec3) (sh : ℕ → Vec3) : Vec3 :=
  if deg > 0 then
    let x := dir.x
    let y := dir.y
    let z := dir.z
    let acc := SH_C1 • sh 2
    if deg > 1 then
      let acc := acc +
        (SH_C2 1 * y) • sh 5 +
        (SH_C2 2 * 2 * (2 * z)) • sh 6 +
        (SH_C2 3 * x) • sh 7
      if deg > 2 then
        acc +
          (SH_C3 1 * (x * y)) • sh 10 +
          (SH_C3 2 * (4 * (2 * (y * z)))) • sh 11 +
          (SH_C3 3 * (3 * (2 * (z * z) - x * x - y * y))) • sh 12 +
          (SH_C3 4 * (4 * (2 * (x * z)))) • sh 13 +
          (SH_C3 5 * (x * x - y * y)) • sh 14
      else acc
    else acc
  else 0

/-- Device part of the SH backward kernel.  Takes the per-primitive inputs,
the three clamp-mask bits, the incoming color gradient, and the previous
contents of the primitive's `dL_dsh` block; returns `dL_ddir` and the
updated `dL_dsh` block (coefficients `k < writtenCount deg` are written,
the rest keep their previous value). -/
def computeColorFromSHBackward (deg : ℕ) (dir : Vec3) (sh : ℕ → Vec3)
    (clamped : Bool × Bool × Bool) (dL_dcolorIn : Vec3) (dL_dsh0 : ℕ → Vec3) :
    Vec3 × (ℕ → Vec3) :=
  -- PyTorch clamp rule: a clamped channel's gradient is zeroed.
  let dL_dcolor : Vec3 :=
    ⟨dL_dcolorIn.x * (if clamped.1 then 0 else 1),
     dL_dcolorIn.y * (if clamped.2.1 then 0 else 1),
     dL_dcolorIn.z * (if clamped.2.2 then 0 else 1)⟩
  let dL_dsh : ℕ → Vec3 := fun k =>
    if k < writtenCount deg then shBasisFn dir k • dL_dcolor else dL_dsh0 k
  let dL_ddir : Vec3 :=
    ⟨(shDRGBdx deg dir sh).dot dL_dcolor,
     (shDRGBdy deg dir sh).dot dL_dcolor,
     (shDRGBdz deg dir sh).dot dL_dcolor⟩
  (dL_ddir, dL_dsh)

/-! ## Covariance builder (`compute_cov3d.cu`). -/

/-- The six floats written by `compute_cov3d_forward`
(`cov3D[0] .. cov3D[5]`). -/
structure Cov6 where
  e0 : ℚ
  e1 : ℚ
  e2 : ℚ
  e3 : ℚ
  e4 : ℚ
  e5 : ℚ
deriving DecidableEq, Repr

/-- Flat-index read of a `Cov6` (for the flat `cov3Ds` array). -/
def Cov6.get (c : Cov6) (e : ℕ) : ℚ :=
  if e = 0 then c.e0 else if e = 1 then c.e1 else if e = 2 then c.e2
  else if e = 3 then c.e3 else if e = 4 then c.e4 else c.e5

/-- Source `scale_vector_to_matrix`: diagonal matrix with the scale on the diagonal. -/
def scale_vector_to_matrix (scale : Vec3) : Mat3 :=
  ⟨⟨scale.x, 0, 0⟩, ⟨0, scale.y, 0⟩, ⟨0, 0, scale.z⟩⟩

/-- Source `unit_quaternion_to_rotmatrix`: the glm::mat3 built by the source.  glm's
nine-scalar constructor is column-major, so the first three arguments of the
source become the first *column* here. -/
def unit_quaternion_to_rotmatrix (uquat : Vec4) : Mat3 :=
  let r := uquat.x
  let x := uquat.y
  let y := uquat.z
  let z := uquat.w
  ⟨⟨1 - 2 * (y * y + z * z), 2 * (x * y - r * z), 2 * (x * z + r * y)⟩,
   ⟨2 * (x * y + r * z), 1 - 2 * (x * x + z * z), 2 * (y * z - r * x)⟩,
   ⟨2 * (x * z - r * y), 2 * (y * z + r * x), 1 - 2 * (x * x + y * y)⟩⟩

/-- Source `compute_cov3d_forward`: M = S * R (glm products), Sigma = transpose(M) * M,
store `Sigma[0][0], Sigma[0][1], Sigma[0][2], Sigma[1][1], Sigma[1][2],
Sigma[2][2]` (glm `[column][row]` access). -/
def compute_cov3d_forward (scale : Vec3) (quat : Vec4) : Cov6 :=
  let S := scale_vector_to_matrix scale
  let R := unit_quaternion_to_rotmatrix quat
  let M := S * R
  let Sigma := M.transpose * M
  ⟨Sigma.c0.x, Sigma.c0.y, Sigma.c0.z, Sigma.c1.y, Sigma.c1.z, Sigma.c2.z⟩

/-- Source `compute_cov3_backward`: gradients w.r.t. scale and quaternion. -/
def compute_cov3_backward (scale : Vec3) (quat : Vec4) (dL_dcov3D : Cov6) :
    Vec3 × Vec4 :=
  let S := scale_vector_to_matrix scale
  let R := unit_quaternion_to_rotmatrix quat
  let M := S * R
  -- Convert covariance loss gradients from vector to (symmetric) matrix.
  let dL_dSigma : Mat3 :=
    ⟨⟨dL_dcov3D.e0, 0.5 * dL_dcov3D.e1, 0.5 * dL_dcov3D.e2⟩,
     ⟨0.5 * dL_dcov3D.e1, dL_dcov3D.e3, 0.5 * dL_dcov3D.e4⟩,
     ⟨0.5 * dL_dcov3D.e2, 0.5 * dL_dcov3D.e4, dL_dcov3D.e5⟩⟩
  -- dSigma_dM = 2 * M
  let dL_dM := (2 : ℚ) • (M * dL_dSigma)
  let Rt := R.transpose
  let dL_dMt := dL_dM.transpose
  let dL_dscale : Vec3 :=
    ⟨Rt.c0.dot dL_dMt.c0, Rt.c1.dot dL_dMt.c1, Rt.c2.dot dL_dMt.c2⟩
  let dL_dMt : Mat3 :=
    ⟨scale.x • dL_dMt.c0, scale.y • dL_dMt.c1, scale.z • dL_dMt.c2⟩
  let r := quat.x
  let x := quat.y
  let y := quat.z
  let z := quat.w
  let dL_dquat : Vec4 :=
    ⟨2 * z * (dL_dMt.c0.y - dL_dMt.c1.x) +
       2 * y * (dL_dMt.c2.x - dL_dMt.c0.z) +
       2 * x * (dL_dMt.c1.z - dL_dMt.c2.y),
     2 * y * (dL_dMt.c1.x + dL_dMt.c0.y) +
       2 * z * (dL_dMt.c2.x + dL_dMt.c0.z) +
       2 * r * (dL_dMt.c1.z - dL_dMt.c2.y) -
       4 * x * (dL_dMt.c2.z + dL_dMt.c1.y),
     2 * x * (dL_dMt.c1.x + dL_dMt.c0.y) +
       2 * r * (dL_dMt.c2.x - dL_dMt.c0.z) +
       2 * z * (dL_dMt.c1.z + dL_dMt.c2.y) -
       4 * y * (dL_dMt.c2.z + dL_dMt.c0.x),
     2 * r * (dL_dMt.c0.y - dL_dMt.c1.x) +
       2 * x * (dL_dMt.c2.x + dL_dMt.c0.z) +
       2 * y * (dL_dMt.c1.z + dL_dMt.c2.y) -
       4 * z * (dL_dMt.c1.y + dL_dMt.c0.x)⟩
  (dL_dscale, dL_dquat)

/-! ## Kernel-level semantics.

Each CUDA kernel launches one thread per primitive; thread `idx` returns
immediately when `idx >= P || !visible[idx]` and otherwise reads its own
primitive's slice and writes its own slice.  Since slots are
index-partitioned, the aggregate effect is the pointwise update below.
The flat-array model assumes the caller's contract
`(deg+1)^2 <= max_coeffs` (coefficient blocks do not alias). -/

/-- Clamp-mask triple selector for the flat `clamped` array
(`clamped[3*idx + c]`). -/
def flagGet (m : Bool × Bool × Bool) (c : ℕ) : Bool :=
  if c = 0 then m.1 else if c = 1 then m.2.1 else m.2.2

/-- Kernel `ComputeColorFromSHForwardCUDAKernel`: aggregate effect on the `colors`
and `clamped` arrays. -/
def shForwardKernel (P deg mc : ℕ) (dirs : ℕ → Vec3) (shs : ℕ → Vec3)
    (vis : ℕ → Bool) (colors0 : ℕ → Vec3) (clamped0 : ℕ → Bool) :
    (ℕ → Vec3) × (ℕ → Bool) :=
  (fun i =>
    if i < P ∧ vis i then
      (computeColorFromSH deg (dirs i) (fun k => shs (i * mc + k))).1
    else colors0 i,
   fun j =>
    if j / 3 < P ∧ vis (j / 3) then
      flagGet (computeColorFromSH deg (dirs (j / 3)) (fun k => shs (j / 3 * mc + k))).2 (j % 3)
    else clamped0 j)

/-- Kernel `ComputeColorFromSHBackwardCUDAKernel`: aggregate effect on the
`dL_ddirs` and flat `dL_dshs` arrays. -/
def shBackwardKernel (P deg mc : ℕ) (dirs : ℕ → Vec3) (shs : ℕ → Vec3)
    (vis : ℕ → Bool) (clamped : ℕ → Bool) (dL_dcolors : ℕ → Vec3)
    (dL_ddirs0 : ℕ → Vec3) (dL_dshs0 : ℕ → Vec3) :
    (ℕ → Vec3) × (ℕ → Vec3) :=
  (fun i =>
    if i < P ∧ vis i then
      (computeColorFromSHBackward deg (dirs i) (fun k => shs (i * mc + k))
        (clamped (3 * i), clamped (3 * i + 1), clamped (3 * i + 2))
        (dL_dcolors i) (fun k => dL_dshs0 (i * mc + k))).1
    else dL_ddirs0 i,
   fun j =>
    if j / mc < P ∧ vis (j / mc) ∧ j % mc < writtenCount deg then
      (computeColorFromSHBackward deg (dirs (j / mc)) (fun k => shs (j / mc * mc + k))
        (clamped (3 * (j / mc)), clamped (3 * (j / mc) + 1), clamped (3 * (j / mc) + 2))
        (dL_dcolors (j / mc)) (fun k => dL_dshs0 (j / mc * mc + k))).2 (j % mc)
    else dL_dshs0 j)

/-- Read primitive `i`'s 6-entry gradient block out of the flat
`dL_dcov3Ds` array. -/
def cov6At (d : ℕ → ℚ) (i : ℕ) : Cov6 :=
  ⟨d (6 * i), d (6 * i + 1), d (6 * i + 2), d (6 * i + 3), d (6 * i + 4), d (6 * i + 5)⟩

/-- Kernel `computeCov3DForwardCUDAKernel`: aggregate effect on the flat `cov3Ds`
array (`cov3Ds + 6 * idx`). -/
def covForwardKernel (P : ℕ) (scales : ℕ → Vec3) (uquats : ℕ → Vec4)
    (vis : ℕ → Bool) (cov3Ds0 : ℕ → ℚ) : ℕ → ℚ :=
  fun j =>
    if j / 6 < P ∧ vis (j / 6) then
      (compute_cov3d_forward (scales (j / 6)) (uquats (j / 6))).get (j % 6)
    else cov3Ds0 j

/-- Kernel `computeCov3DBackwardCUDAKernel`: aggregate effect on the `dL_dscales`
and `dL_duquats` arrays. -/
def covBackwardKernel (P : ℕ) (scales : ℕ → Vec3) (uquats : ℕ → Vec4)
    (vis : ℕ → Bool) (dL_dcov3Ds : ℕ → ℚ)
    (dL_dscales0 : ℕ → Vec3) (dL_duquats0 : ℕ → Vec4) :
    (ℕ → Vec3) × (ℕ → Vec4) :=
  (fun i =>
    if i < P ∧ vis i then
      (compute_cov3_backward (scales i) (uquats i) (cov6At dL_dcov3Ds i)).1
    else dL_dscales0 i,
   fun i =>
    if i < P ∧ vis i then
      (compute_cov3_backward (scales i) (uquats i) (cov6At dL_dcov3Ds i)).2
    else dL_duquats0 i)

/-! ## Host entrypoints. -/

/-- Number of threads issued by a `<<<(P + 255) / 256, 256>>>` launch. -/
def gridThreads (P : ℕ) : ℕ := (P + 255) / 256 * 256

/-- Host `ComputeColorFromSHForwardCUDA`: launches the kernel on the
caller's arrays (no `P != 0` guard in the source; a `P = 0` call issues
`gridThreads 0 = 0` threads). -/
def ComputeColorFromSHForwardCUDA (P deg mc : ℕ) (dirs : ℕ → Vec3)
    (shs : ℕ → Vec3) (vis : ℕ → Bool) (colors0 : ℕ → Vec3)
    (clamped0 : ℕ → Bool) : (ℕ → Vec3) × (ℕ → Bool) :=
  shForwardKernel P deg mc dirs shs vis colors0 clamped0

/-- Host `ComputeColorFromSHBackwardCUDA`. -/
def ComputeColorFromSHBackwardCUDA (P deg mc : ℕ) (dirs : ℕ → Vec3)
    (shs : ℕ → Vec3) (vis : ℕ → Bool) (clamped : ℕ → Bool)
    (dL_dcolors : ℕ → Vec3) (dL_ddirs0 : ℕ → Vec3) (dL_dshs0 : ℕ → Vec3) :
    (ℕ → Vec3) × (ℕ → Vec3) :=
  shBackwardKernel P deg mc dirs shs vis clamped dL_dcolors dL_ddirs0 dL_dshs0

/-- Host `computeCov3DForward`: allocates a zero-initialized `P × 6` tensor
and, when `P != 0`, launches the kernel on it. -/
def computeCov3DForward (P : ℕ) (scales : ℕ → Vec3) (uquats : ℕ → Vec4)
    (vis : ℕ → Bool) : ℕ → ℚ :=
  if P ≠ 0 then covForwardKernel P scales uquats vis (fun _ => 0)
  else fun _ => 0

/-- Host `computeCov3DBackward`: allocates zero-initialized `P × 3` and
`P × 4` tensors and, when `P != 0`, launches the kernel on them. -/
def computeCov3DBackward (P : ℕ) (scales : ℕ → Vec3) (uquats : ℕ → Vec4)
    (vis : ℕ → Bool) (dL_dcov3Ds : ℕ → ℚ) : (ℕ → Vec3) × (ℕ → Vec4) :=
  if P ≠ 0 then
    covBackwardKernel P scales uquats vis dL_dcov3Ds (fun _ => ⟨0, 0, 0⟩) (fun _ => ⟨0, 0, 0, 0⟩)
  else (fun _ => ⟨0, 0, 0⟩, fun _ => ⟨0, 0, 0, 0⟩)

/-! ## Specification-side definitions.

These definitions follow the wording of the specification (standard
scalar-first quaternion-to-rotation formula, truncated SH expansion,
upper-triangle storage) and are compared against the source embedding in
the theorems below. -/

/-- The standard scalar-first unit-quaternion-to-rotation-matrix formula,
as a row-indexed mathematical matrix (spec wording). -/
def stdRotMatrix (q : Vec4) : Matrix (Fin 3) (Fin 3) ℚ :=
  let r := q.x
  let x := q.y
  let y := q.z
  let z := q.w
  !![1 - 2 * (y * y + z * z), 2 * (x * y - r * z), 2 * (x * z + r * y);
     2 * (x * y + r * z), 1 - 2 * (x * x + z * z), 2 * (y * z - r * x);
     2 * (x * z - r * y), 2 * (y * z + r * x), 1 - 2 * (x * x + y * y)]

/-- Diagonal scale matrix (spec wording). -/
def scaleDiagMatrix (s : Vec3) : Matrix (Fin 3) (Fin 3) ℚ :=
  !![s.x, 0, 0; 0, s.y, 0; 0, 0, s.z]

/-- Modelled from the claim's words: `Sigma = M^T * M` with `M = S * R`,
`R` the standard scalar-first rotation matrix. -/
def covClaimMatrix (s : Vec3) (q : Vec4) : Matrix (Fin 3) (Fin 3) ℚ :=
  (scaleDiagMatrix s * stdRotMatrix q).transpose * (scaleDiagMatrix s * stdRotMatrix q)

/-- What the source actually stores: `Sigma = M * M^T` with `M = R * S`
(equivalently `R * S^2 * R^T`), `R` the standard scalar-first rotation
matrix. -/
def covCodeMatrix (s : Vec3) (q : Vec4) : Matrix (Fin 3) (Fin 3) ℚ :=
  (stdRotMatrix q * scaleDiagMatrix s) * (stdRotMatrix q * scaleDiagMatrix s).transpose

/-- Upper triangle of a symmetric 3×3 matrix, row-major
(`[00, 01, 02, 11, 12, 22]`), as stored in `cov3D`. -/
def upper6 (A : Matrix (Fin 3) (Fin 3) ℚ) (e : Fin 6) : ℚ :=
  if e.val = 0 then A 0 0 else if e.val = 1 then A 0 1 else if e.val = 2 then A 0 2
  else if e.val = 3 then A 1 1 else if e.val = 4 then A 1 2 else A 2 2

/-- Reconstruct the symmetric 3×3 matrix from the six stored entries. -/
def reconstructCov (c : Cov6) : Matrix (Fin 3) (Fin 3) ℚ :=
  !![c.e0, c.e1, c.e2;
     c.e1, c.e3, c.e4;
     c.e2, c.e4, c.e5]

/-- The linear loss functional on the six covariance entries whose
coefficients are the incoming gradient `dL_dcov3D`. -/
def dot6 (d c : Cov6) : ℚ :=
  d.e0 * c.e0 + d.e1 * c.e1 + d.e2 * c.e2 + d.e3 * c.e3 + d.e4 * c.e4 + d.e5 * c.e5

/-- Dot product for quaternion 4-vectors. -/
def Vec4.dot (u v : Vec4) : ℚ := u.x * v.x + u.y * v.y + u.z * v.z + u.w * v.w

/-- Partial derivatives of the SH basis functions w.r.t. `dir.x`, as they
appear in the backward kernel's `dRGBdx` accumulation. -/
def shBasisDx (dir : Vec3) : ℕ → ℚ
  | 3 => -SH_C1
  | 4 => SH_C2 0 * dir.y
  | 6 => SH_C2 2 * 2 * (-dir.x)
  | 7 => SH_C2 3 * dir.z
  | 8 => SH_C2 4 * 2 * dir.x
  | 9 => SH_C3 0 * (3 * (2 * (dir.x * dir.y)))
  | 10 => SH_C3 1 * (dir.y * dir.z)
  | 11 => SH_C3 2 * (-2 * (dir.x * dir.y))
  | 12 => SH_C3 3 * (-3 * (2 * (dir.x * dir.z)))
  | 13 => SH_C3 4 * (-3 * (dir.x * dir.x) + 4 * (dir.z * dir.z) - dir.y * dir.y)
  | 14 => SH_C3 5 * (2 * (dir.x * dir.z))
  | 15 => SH_C3 6 * (3 * (dir.x * dir.x - dir.y * dir.y))
  | _ => 0

/-- Partial derivatives of the SH basis functions w.r.t. `dir.y`
(`dRGBdy` accumulation). -/
def shBasisDy (dir : Vec3) : ℕ → ℚ
  | 1 => -SH_C1
  | 4 => SH_C2 0 * dir.x
  | 5 => SH_C2 1 * dir.z
  | 6 => SH_C2 2 * 2 * (-dir.y)
  | 8 => SH_C2 4 * 2 * (-dir.y)
  | 9 => SH_C3 0 * (3 * (dir.x * dir.x - dir.y * dir.y))
  | 10 => SH_C3 1 * (dir.x * dir.z)
  | 11 => SH_C3 2 * (-3 * (dir.y * dir.y) + 4 * (dir.z * dir.z) - dir.x * dir.x)
  | 12 => SH_C3 3 * (-3 * (2 * (dir.y * dir.z)))
  | 13 => SH_C3 4 * (-2 * (dir.x * dir.y))
  | 14 => SH_C3 5 * (-2 * (dir.y * dir.z))
  | 15 => SH_C3 6 * (-3 * (2 * (dir.x * dir.y)))
  | _ => 0

/-- Partial derivatives of the SH basis functions w.r.t. `dir.z`
(`dRGBdz` accumulation). -/
def shBasisDz (dir : Vec3) : ℕ → ℚ
  | 2 => SH_C1
  | 5 => SH_C2 1 * dir.y
  | 6 => SH_C2 2 * 2 * (2 * dir.z)
  | 7 => SH_C2 3 * dir.x
  | 10 => SH_C3 1 * (dir.x * dir.y)
  | 11 => SH_C3 2 * (4 * (2 * (dir.y * dir.z)))
  | 12 => SH_C3 3 * (3 * (2 * (dir.z * dir.z) - dir.x * dir.x - dir.y * dir.y))
  | 13 => SH_C3 4 * (4 * (2 * (dir.x * dir.z)))
  | 14 => SH_C3 5 * (dir.x * dir.x - dir.y * dir.y)
  | _ => 0

/-! ## Basic component lemmas. -/

namespace Vec3

@[simp] theorem add_x (u v : Vec3) : (u + v).x = u.x + v.x := rfl

@[simp] theorem add_y (u v : Vec3) : (u + v).y = u.y + v.y := rfl

@[simp] theorem add_z (u v : Vec3) : (u + v).z = u.z + v.z := rfl

@[simp] theorem sub_x (u v : Vec3) : (u - v).x = u.x - v.x := rfl

@[simp] theorem sub_y (u v : Vec3) : (u - v).y = u.y - v.y := rfl

@[simp] theorem sub_z (u v : Vec3) : (u - v).z = u.z - v.z := rfl

@[simp] theorem smul_x (a : ℚ) (v : Vec3) : (a • v).x = a * v.x := rfl

@[simp] theorem smul_y (a : ℚ) (v : Vec3) : (a • v).y = a * v.y := rfl

@[simp] theorem smul_z (a : ℚ) (v : Vec3) : (a • v).z = a * v.z := rfl

@[simp] theorem zero_x : (0 : Vec3).x = 0 := rfl

@[simp] theorem zero_y : (0 : Vec3).y = 0 := rfl

@[simp] theorem zero_z : (0 : Vec3).z = 0 := rfl

end Vec3

@[simp] theorem Mat3.mul_def (A B : Mat3) : A * B = A.mul B := rfl

@[simp] theorem Mat3.smul_def (a : ℚ) (A : Mat3) : a • A = A.smul a := rfl

/-! ## Polynomial derivative helpers over `ℚ`.

`HasDerivAt` proofs for explicit low-degree polynomials, used to state that
the backward passes produce the exact derivatives of the forward
polynomials. -/

theorem hasDerivAt_poly4 (a b c d e x : ℚ) :
    HasDerivAt (fun t : ℚ => a * t ^ 4 + b * t ^ 3 + c * t ^ 2 + d * t + e)
      (4 * a * x ^ 3 + 3 * b * x ^ 2 + 2 * c * x + d) x := by
  have h4 := (hasDerivAt_pow 4 x).const_mul a
  have h3 := (hasDerivAt_pow 3 x).const_mul b
  have h2 := (hasDerivAt_pow 2 x).const_mul c
  have h1 := (hasDerivAt_id x).const_mul d
  have h := (((h4.add h3).add h2).add h1).add_const e
  convert h using 1
  push_cast
  ring

/-- Derivative of a function that agrees with an explicit quartic. -/
theorem hasDerivAt_fit4 {f : ℚ → ℚ} {a b c d e x D : ℚ}
    (hf : ∀ t, f t = a * t ^ 4 + b * t ^ 3 + c * t ^ 2 + d * t + e)
    (hD : D = 4 * a * x ^ 3 + 3 * b * x ^ 2 + 2 * c * x + d) :
    HasDerivAt f D x := by
  have hfe : f = fun t => a * t ^ 4 + b * t ^ 3 + c * t ^ 2 + d * t + e := funext hf
  rw [hfe, hD]
  exact hasDerivAt_poly4 a b c d e x

/-! ## SH forward: decomposition into basis functions. -/

@[ext] theorem Vec3.ext' (a b : Vec3) (hx : a.x = b.x) (hy : a.y = b.y)
    (hz : a.z = b.z) : a = b := by
  cases a
  cases b
  simp only at hx hy hz
  simp [hx, hy, hz]

set_option maxHeartbeats 1600000 in
/-- For `deg ≤ 3` the pre-clamp forward accumulator is the truncated real
SH expansion: `0.5` plus the sum over the first `(deg+1)^2` coefficients of
basis-function value times coefficient, per channel. -/
theorem shRaw_eq_basis_sum (deg : ℕ) (hdeg : deg ≤ 3) (dir : Vec3) (sh : ℕ → Vec3) :
    shRaw deg dir sh =
      ⟨0.5 + ∑ k ∈ Finset.range ((deg + 1) ^ 2), shBasisFn dir k * (sh k).x,
       0.5 + ∑ k ∈ Finset.range ((deg + 1) ^ 2), shBasisFn dir k * (sh k).y,
       0.5 + ∑ k ∈ Finset.range ((deg + 1) ^ 2), shBasisFn dir k * (sh k).z⟩ := by
  interval_cases deg <;>
  · refine Vec3.ext' _ _ ?_ ?_ ?_ <;>
    · simp [shRaw, shBasisFn, Vec3.addScalar, Finset.sum_range_succ]
      ring

/-! ## Claim C4. -/

/-- C4: for every visible in-range primitive and `deg ≤ 3`, the forward
kernel writes color = clamp(0.5 + truncated SH expansion at the stored
direction, ≥ 0) and records per channel whether the biased pre-clamp value
is negative. -/
theorem sh_forward_truncated_expansion (P deg mc : ℕ) (hdeg : deg ≤ 3)
    (dirs : ℕ → Vec3) (shs : ℕ → Vec3) (vis : ℕ → Bool) (colors0 : ℕ → Vec3)
    (clamped0 : ℕ → Bool) (i : ℕ) (hi : i < P) (hv : vis i = true) :
    (shForwardKernel P deg mc dirs shs vis colors0 clamped0).1 i =
      (Vec3.mk
        (0.5 + ∑ k ∈ Finset.range ((deg + 1) ^ 2), shBasisFn (dirs i) k * (shs (i * mc + k)).x)
        (0.5 + ∑ k ∈ Finset.range ((deg + 1) ^ 2), shBasisFn (dirs i) k * (shs (i * mc + k)).y)
        (0.5 + ∑ k ∈ Finset.range ((deg + 1) ^ 2), shBasisFn (dirs i) k * (shs (i * mc + k)).z)).maxScalar 0 ∧
    (shForwardKernel P deg mc dirs shs vis colors0 clamped0).2 (3 * i) =
      decide ((0.5 + ∑ k ∈ Finset.range ((deg + 1) ^ 2), shBasisFn (dirs i) k * (shs (i * mc + k)).x) < 0) ∧
    (shForwardKernel P deg mc dirs shs vis colors0 clamped0).2 (3 * i + 1) =
      decide ((0.5 + ∑ k ∈ Finset.range ((deg + 1) ^ 2), shBasisFn (dirs i) k * (shs (i * mc + k)).y) < 0) ∧
    (shForwardKernel P deg mc dirs shs vis colors0 clamped0).2 (3 * i + 2) =
      decide ((0.5 + ∑ k ∈ Finset.range ((deg + 1) ^ 2), shBasisFn (dirs i) k * (shs (i * mc + k)).z) < 0) := by
  have h30 : (3 * i) / 3 = i := by omega
  have h31 : (3 * i + 1) / 3 = i := by omega
  have h32 : (3 * i + 2) / 3 = i := by omega
  have m30 : (3 * i) % 3 = 0 := by omega
  have m31 : (3 * i + 1) % 3 = 1 := by omega
  have m32 : (3 * i + 2) % 3 = 2 := by omega
  refine ⟨?_, ?_, ?_, ?_⟩ <;>
    simp [shForwardKernel, computeColorFromSH, flagGet, hi, hv, h30, h31, h32,
      m30, m31, m32, shRaw_eq_basis_sum deg hdeg]

/-- Witness for `sh_forward_truncated_expansion` at a concrete input. -/
theorem sh_forward_truncated_expansion_witness :
    (1 : ℕ) ≤ 3 ∧ 0 < 1 ∧ (fun _ : ℕ => true) 0 = true ∧
    ((shForwardKernel 1 1 4 (fun _ => ⟨0, 0, 1⟩) (fun _ => ⟨1, 1, 1⟩)
        (fun _ => true) (fun _ => ⟨0, 0, 0⟩) (fun _ => false)).1 0 =
      (Vec3.mk
        (0.5 + ∑ k ∈ Finset.range ((1 + 1) ^ 2), shBasisFn ⟨0, 0, 1⟩ k * ((fun _ : ℕ => Vec3.mk 1 1 1) (0 * 4 + k)).x)
        (0.5 + ∑ k ∈ Finset.range ((1 + 1) ^ 2), shBasisFn ⟨0, 0, 1⟩ k * ((fun _ : ℕ => Vec3.mk 1 1 1) (0 * 4 + k)).y)
        (0.5 + ∑ k ∈ Finset.range ((1 + 1) ^ 2), shBasisFn ⟨0, 0, 1⟩ k * ((fun _ : ℕ => Vec3.mk 1 1 1) (0 * 4 + k)).z)).maxScalar 0) :=
  ⟨by decide, by decide, rfl,
    (sh_forward_truncated_expansion 1 1 4 (by decide) (fun _ => ⟨0, 0, 1⟩)
      (fun _ => ⟨1, 1, 1⟩) (fun _ => true) (fun _ => ⟨0, 0, 0⟩) (fun _ => false)
      0 (by decide) rfl).1⟩

/-! ## Claim C6. -/

/-- C6: running the forward pass at a higher degree on a coefficient block
whose entries for bands above `d` are zero reproduces the degree-`d` color
and clamp mask exactly. -/
theorem sh_forward_monotone_extension (d d' : ℕ) (hlt : d < d') (h3 : d' ≤ 3)
    (dir : Vec3) (sh : ℕ → Vec3)
    (hzero : ∀ k, (d + 1) ^ 2 ≤ k → sh k = ⟨0, 0, 0⟩) :
    computeColorFromSH d' dir sh = computeColorFromSH d dir sh := by
  have hd3 : d ≤ 3 := by omega
  have hsub : Finset.range ((d + 1) ^ 2) ⊆ Finset.range ((d' + 1) ^ 2) :=
    Finset.range_subset.mpr (Nat.pow_le_pow_left (by omega) 2)
  have hraw : shRaw d' dir sh = shRaw d dir sh := by
    rw [shRaw_eq_basis_sum d' h3 dir sh, shRaw_eq_basis_sum d hd3 dir sh]
    refine Vec3.ext' _ _ ?_ ?_ ?_ <;>
    · simp only []
      congr 1
      refine (Finset.sum_subset hsub ?_).symm
      intro k _ hk
      rw [hzero k (Nat.le_of_not_lt (fun hlt' => hk (Finset.mem_range.mpr hlt')))]
      simp
  simp only [computeColorFromSH, hraw]

/-- Witness for `sh_forward_monotone_extension` at a concrete input. -/
theorem sh_forward_monotone_extension_witness :
    0 < 2 ∧ 2 ≤ 3 ∧
    (∀ k, (0 + 1) ^ 2 ≤ k → (fun n : ℕ => if n = 0 then Vec3.mk 1 2 3 else ⟨0, 0, 0⟩) k = ⟨0, 0, 0⟩) ∧
    computeColorFromSH 2 ⟨1, 0, 0⟩ (fun n : ℕ => if n = 0 then Vec3.mk 1 2 3 else ⟨0, 0, 0⟩) =
      computeColorFromSH 0 ⟨1, 0, 0⟩ (fun n : ℕ => if n = 0 then Vec3.mk 1 2 3 else ⟨0, 0, 0⟩) :=
  ⟨by decide, by decide,
    fun k hk => show (if k = 0 then Vec3.mk 1 2 3 else ⟨0, 0, 0⟩) = ⟨0, 0, 0⟩ from
      if_neg (by omega),
    sh_forward_monotone_extension 0 2 (by decide) (by decide) ⟨1, 0, 0⟩ _
      (fun k hk => show (if k = 0 then Vec3.mk 1 2 3 else ⟨0, 0, 0⟩) = ⟨0, 0, 0⟩ from
        if_neg (by omega))⟩

/-! ## Claim C7. -/

/-- C7 (counterexample): in the spec's example (deg 0, direction (0,0,1),
coefficient0 = (1,1,1)) the forward color channel is
`SH_C0 + 0.5 = 0.78209479177387814`, not the rounded value `0.78209479`
stated by the claim. -/
theorem sh_forward_deg0_value_counterexample :
    (computeColorFromSH 0 ⟨0, 0, 1⟩ (fun _ => ⟨1, 1, 1⟩)).1.x ≠ 0.78209479 := by
  simp only [computeColorFromSH, shRaw, Vec3.maxScalar, Vec3.addScalar, SH_C0,
    Vec3.smul_x, gt_iff_lt, lt_self_iff_false, if_false]
  norm_num

/-- C7 (amended): with `deg = 0` the forward output depends only on
coefficient 0 and equals `clamp(SH_C0 * c0 + 0.5, ≥ 0)` per channel; in the
example scenario (direction (0,0,1), coefficient0 = (1,1,1)) the color is
exactly (0.78209479177387814, 0.78209479177387814, 0.78209479177387814)
(which prints rounded as 0.78209479) and the clamp mask is all false. -/
theorem sh_forward_deg0_law :
    (∀ dir : Vec3, ∀ sh sh' : ℕ → Vec3, sh 0 = sh' 0 →
      computeColorFromSH 0 dir sh = computeColorFromSH 0 dir sh') ∧
    (∀ dir : Vec3, ∀ sh : ℕ → Vec3,
      computeColorFromSH 0 dir sh =
        (((SH_C0 • sh 0).addScalar 0.5).maxScalar 0,
         (decide (((SH_C0 • sh 0).addScalar 0.5).x < 0),
          decide (((SH_C0 • sh 0).addScalar 0.5).y < 0),
          decide (((SH_C0 • sh 0).addScalar 0.5).z < 0)))) ∧
    computeColorFromSH 0 ⟨0, 0, 1⟩ (fun _ => ⟨1, 1, 1⟩) =
      (⟨0.78209479177387814, 0.78209479177387814, 0.78209479177387814⟩,
       (false, false, false)) := by
  refine ⟨?_, ?_, ?_⟩
  · intro dir sh sh' h
    simp [computeColorFromSH, shRaw, h]
  · intro dir sh
    simp [computeColorFromSH, shRaw]
  · have hpre : shRaw 0 ⟨0, 0, 1⟩ (fun _ => ⟨1, 1, 1⟩) =
        Vec3.mk 0.78209479177387814 0.78209479177387814 0.78209479177387814 := by
      refine Vec3.ext' _ _ ?_ ?_ ?_ <;>
      · simp [shRaw, Vec3.addScalar, SH_C0]
        norm_num
    have hmax : (Vec3.mk (0.78209479177387814 : ℚ) 0.78209479177387814
        0.78209479177387814).maxScalar 0 =
        Vec3.mk 0.78209479177387814 0.78209479177387814 0.78209479177387814 := by
      refine Vec3.ext' _ _ ?_ ?_ ?_ <;>
      · simp only [Vec3.maxScalar]
        rw [max_eq_left (by norm_num : (0 : ℚ) ≤ 0.78209479177387814)]
    have hneg : ¬((0.78209479177387814 : ℚ) < 0) := by norm_num
    simp [computeColorFromSH, hpre, hmax, hneg]

/-- Witness for `sh_forward_deg0_law` (its first conjunct has a
hypothesis): two coefficient blocks sharing coefficient 0 give the same
deg-0 output. -/
theorem sh_forward_deg0_law_witness :
    ((fun _ : ℕ => Vec3.mk 1 1 1) 0 = (fun n : ℕ => if n = 0 then Vec3.mk 1 1 1 else ⟨9, 9, 9⟩) 0) ∧
    computeColorFromSH 0 ⟨0, 0, 1⟩ (fun _ => ⟨1, 1, 1⟩) =
      computeColorFromSH 0 ⟨0, 0, 1⟩ (fun n : ℕ => if n = 0 then Vec3.mk 1 1 1 else ⟨9, 9, 9⟩) :=
  by
  refine ⟨rfl, ?_⟩
  exact sh_forward_deg0_law.1 ⟨0, 0, 1⟩ (fun _ => ⟨1, 1, 1⟩)
    (fun n : ℕ => if n = 0 then Vec3.mk 1 1 1 else ⟨9, 9, 9⟩) rfl

/-! ## Read-set congruence lemmas for the SH device functions. -/

/-- The forward accumulator reads only coefficients `k < writtenCount deg`. -/
theorem shRaw_congr (deg : ℕ) (dir : Vec3) (sh sh' : ℕ → Vec3)
    (h : ∀ k, k < writtenCount deg → sh k = sh' k) :
    shRaw deg dir sh = shRaw deg dir sh' := by
  by_cases h2 : deg > 2
  · have hw : writtenCount deg = 16 := by simp [writtenCount, h2]
    rw [hw] at h
    simp only [shRaw, if_pos (show deg > 0 by omega), if_pos (show deg > 1 by omega),
      if_pos h2]
    rw [h 0 (by omega), h 1 (by omega), h 2 (by omega), h 3 (by omega),
      h 4 (by omega), h 5 (by omega), h 6 (by omega), h 7 (by omega),
      h 8 (by omega), h 9 (by omega), h 10 (by omega), h 11 (by omega),
      h 12 (by omega), h 13 (by omega), h 14 (by omega), h 15 (by omega)]
  · by_cases h1 : deg > 1
    · have hw : writtenCount deg = 9 := by simp [writtenCount, h2, h1]
      rw [hw] at h
      simp only [shRaw, if_pos (show deg > 0 by omega), if_pos h1, if_neg h2]
      rw [h 0 (by omega), h 1 (by omega), h 2 (by omega), h 3 (by omega),
        h 4 (by omega), h 5 (by omega), h 6 (by omega), h 7 (by omega),
        h 8 (by omega)]
    · by_cases h0 : deg > 0
      · have hw : writtenCount deg = 4 := by simp [writtenCount, h2, h1, h0]
        rw [hw] at h
        simp only [shRaw, if_pos h0, if_neg h1, if_neg h2]
        rw [h 0 (by omega), h 1 (by omega), h 2 (by omega), h 3 (by omega)]
      · have hw : writtenCount deg = 1 := by simp [writtenCount, h2, h1, h0]
        rw [hw] at h
        simp only [shRaw, if_neg h0]
        rw [h 0 (by omega)]

/-- Hence the whole forward device function reads only `dir` and the
first `writtenCount deg` coefficients. -/
theorem computeColorFromSH_congr (deg : ℕ) (dir : Vec3) (sh sh' : ℕ → Vec3)
    (h : ∀ k, k < writtenCount deg → sh k = sh' k) :
    computeColorFromSH deg dir sh = computeColorFromSH deg dir sh' := by
  simp only [computeColorFromSH, shRaw_congr deg dir sh sh' h]

/-- Accumulator `dRGBdx` reads only coefficients `k < writtenCount deg`. -/
theorem shDRGBdx_congr (deg : ℕ) (dir : Vec3) (sh sh' : ℕ → Vec3)
    (h : ∀ k, k < writtenCount deg → sh k = sh' k) :
    shDRGBdx deg dir sh = shDRGBdx deg dir sh' := by
  by_cases h2 : deg > 2
  · have hw : writtenCount deg = 16 := by simp [writtenCount, h2]
    rw [hw] at h
    simp only [shDRGBdx, if_pos (show deg > 0 by omega), if_pos (show deg > 1 by omega),
      if_pos h2]
    rw [h 3 (by omega), h 4 (by omega), h 6 (by omega), h 7 (by omega),
      h 8 (by omega), h 9 (by omega), h 10 (by omega), h 11 (by omega),
      h 12 (by omega), h 13 (by omega), h 14 (by omega), h 15 (by omega)]
  · by_cases h1 : deg > 1
    · have hw : writtenCount deg = 9 := by simp [writtenCount, h2, h1]
      rw [hw] at h
      simp only [shDRGBdx, if_pos (show deg > 0 by omega), if_pos h1, if_neg h2]
      rw [h 3 (by omega), h 4 (by omega), h 6 (by omega), h 7 (by omega),
        h 8 (by omega)]
    · by_cases h0 : deg > 0
      · have hw : writtenCount deg = 4 := by simp [writtenCount, h2, h1, h0]
        rw [hw] at h
        simp only [shDRGBdx, if_pos h0, if_neg h1, if_neg h2]
        rw [h 3 (by omega)]
      · simp only [shDRGBdx, if_neg h0]

/-- Accumulator `dRGBdy` reads only coefficients `k < writtenCount deg`. -/
theorem shDRGBdy_congr (deg : ℕ) (dir : Vec3) (sh sh' : ℕ → Vec3)
    (h : ∀ k, k < writtenCount deg → sh k = sh' k) :
    shDRGBdy deg dir sh = shDRGBdy deg dir sh' := by
  by_cases h2 : deg > 2
  · have hw : writtenCount deg = 16 := by simp [writtenCount, h2]
    rw [hw] at h
    simp only [shDRGBdy, if_pos (show deg > 0 by omega), if_pos (show deg > 1 by omega),
      if_pos h2]
    rw [h 1 (by omega), h 4 (by omega), h 5 (by omega), h 6 (by omega),
      h 8 (by omega), h 9 (by omega), h 10 (by omega), h 11 (by omega),
      h 12 (by omega), h 13 (by omega), h 14 (by omega), h 15 (by omega)]
  · by_cases h1 : deg > 1
    · have hw : writtenCount deg = 9 := by simp [writtenCount, h2, h1]
      rw [hw] at h
      simp only [shDRGBdy, if_pos (show deg > 0 by omega), if_pos h1, if_neg h2]
      rw [h 1 (by omega), h 4 (by omega), h 5 (by omega), h 6 (by omega),
        h 8 (by omega)]
    · by_cases h0 : deg > 0
      · have hw : writtenCount deg = 4 := by simp [writtenCount, h2, h1, h0]
        rw [hw] at h
        simp only [shDRGBdy, if_pos h0, if_neg h1, if_neg h2]
        rw [h 1 (by omega)]
      · simp only [shDRGBdy, if_neg h0]

/-- Accumulator `dRGBdz` reads only coefficients `k < writtenCount deg`. -/
theorem shDRGBdz_congr (deg : ℕ) (dir : Vec3) (sh sh' : ℕ → Vec3)
    (h : ∀ k, k < writtenCount deg → sh k = sh' k) :
    shDRGBdz deg dir sh = shDRGBdz deg dir sh' := by
  by_cases h2 : deg > 2
  · have hw : writtenCount deg = 16 := by simp [writtenCount, h2]
    rw [hw] at h
    simp only [shDRGBdz, if_pos (show deg > 0 by omega), if_pos (show deg > 1 by omega),
      if_pos h2]
    rw [h 2 (by omega), h 5 (by omega), h 6 (by omega), h 7 (by omega),
      h 10 (by omega), h 11 (by omega), h 12 (by omega), h 13 (by omega),
      h 14 (by omega)]
  · by_cases h1 : deg > 1
    · have hw : writtenCount deg = 9 := by simp [writtenCount, h2, h1]
      rw [hw] at h
      simp only [shDRGBdz, if_pos (show deg > 0 by omega), if_pos h1, if_neg h2]
      rw [h 2 (by omega), h 5 (by omega), h 6 (by omega), h 7 (by omega)]
    · by_cases h0 : deg > 0
      · have hw : writtenCount deg = 4 := by simp [writtenCount, h2, h1, h0]
        rw [hw] at h
        simp only [shDRGBdz, if_pos h0, if_neg h1, if_neg h2]
        rw [h 2 (by omega)]
      · simp only [shDRGBdz, if_neg h0]

/-- The backward device function reads only `dir`, the clamp bits, the
incoming gradient and the first `writtenCount deg` coefficients (its
second component also forwards the previous `dL_dsh` block). -/
theorem computeColorFromSHBackward_congr (deg : ℕ) (dir : Vec3)
    (sh sh' : ℕ → Vec3) (cl : Bool × Bool × Bool) (g : Vec3)
    (init init' : ℕ → Vec3)
    (h : ∀ k, k < writtenCount deg → sh k = sh' k) :
    (computeColorFromSHBackward deg dir sh cl g init).1 =
      (computeColorFromSHBackward deg dir sh' cl g init').1 ∧
    ∀ k, k < writtenCount deg →
      (computeColorFromSHBackward deg dir sh cl g init).2 k =
        (computeColorFromSHBackward deg dir sh' cl g init').2 k := by
  constructor
  · simp only [computeColorFromSHBackward, shDRGBdx_congr deg dir sh sh' h,
      shDRGBdy_congr deg dir sh sh' h, shDRGBdz_congr deg dir sh sh' h]
  · intro k hk
    simp only [computeColorFromSHBackward, if_pos hk]

/-- Disjointness of coefficient blocks of distinct primitives. -/
theorem block_disjoint {i j k mc : ℕ} (hne : j ≠ i) (hk : k < mc) :
    ¬(i * mc ≤ j * mc + k ∧ j * mc + k < i * mc + mc) := by
  rcases Nat.lt_or_ge j i with hj | hj
  · rintro ⟨hl, -⟩
    have hlt : j * mc + k < i * mc := by
      have h1 : j * mc + k < (j + 1) * mc := by
        have : (j + 1) * mc = j * mc + mc := by ring
        omega
      have h2 : (j + 1) * mc ≤ i * mc := Nat.mul_le_mul_right mc (by omega)
      omega
    omega
  · have hj' : i < j := Nat.lt_of_le_of_ne hj (Ne.symm hne)
    rintro ⟨-, hr⟩
    have hle : i * mc + mc ≤ j * mc := by
      have h1 : i * mc + mc = (i + 1) * mc := by ring
      have h2 : (i + 1) * mc ≤ j * mc := Nat.mul_le_mul_right mc (by omega)
      omega
    omega

/-- Division of an in-block flat index recovers the primitive index. -/
theorem block_div {i k mc : ℕ} (hmc : 0 < mc) (hk : k < mc) :
    (i * mc + k) / mc = i := by
  rw [Nat.mul_comm, Nat.mul_add_div hmc, Nat.div_eq_of_lt hk]
  omega

/-! ## Claim C8. -/

/-- C8: in all four kernels, a worker whose index is out of range or whose
visibility bit is false writes nothing (every output slot of that primitive
keeps its pre-call value), none of that primitive's input data is read
(changing it does not change any output), and the visibility mask is only
consulted at indices below the bound `P`. -/
theorem kernels_bound_and_visibility_guard
    (P deg mc : ℕ) (hwc : writtenCount deg ≤ mc)
    (dirs shs : ℕ → Vec3) (vis : ℕ → Bool)
    (colors0 : ℕ → Vec3) (clamped0 : ℕ → Bool)
    (clamped : ℕ → Bool) (dL_dcolors : ℕ → Vec3)
    (dL_ddirs0 dL_dshs0 : ℕ → Vec3)
    (scales : ℕ → Vec3) (uquats : ℕ → Vec4) (cov0 dL_dcov3Ds : ℕ → ℚ)
    (dL_dscales0 : ℕ → Vec3) (dL_duquats0 : ℕ → Vec4)
    (i : ℕ) (hmask : P ≤ i ∨ vis i = false) :
    (shForwardKernel P deg mc dirs shs vis colors0 clamped0).1 i = colors0 i ∧
    (∀ c, c < 3 →
      (shForwardKernel P deg mc dirs shs vis colors0 clamped0).2 (3 * i + c) =
        clamped0 (3 * i + c)) ∧
    (shBackwardKernel P deg mc dirs shs vis clamped dL_dcolors dL_ddirs0 dL_dshs0).1 i =
      dL_ddirs0 i ∧
    (∀ k, k < mc →
      (shBackwardKernel P deg mc dirs shs vis clamped dL_dcolors dL_ddirs0 dL_dshs0).2 (i * mc + k) =
        dL_dshs0 (i * mc + k)) ∧
    (∀ e, e < 6 →
      covForwardKernel P scales uquats vis cov0 (6 * i + e) = cov0 (6 * i + e)) ∧
    (covBackwardKernel P scales uquats vis dL_dcov3Ds dL_dscales0 dL_duquats0).1 i =
      dL_dscales0 i ∧
    (covBackwardKernel P scales uquats vis dL_dcov3Ds dL_dscales0 dL_duquats0).2 i =
      dL_duquats0 i ∧
    (∀ (dirs' shs' : ℕ → Vec3) (vis' clamped' : ℕ → Bool)
        (dL_dcolors' scales' : ℕ → Vec3) (uquats' : ℕ → Vec4)
        (dL_dcov3Ds' : ℕ → ℚ),
      (∀ j, j ≠ i → dirs' j = dirs j) →
      (∀ k, ¬(i * mc ≤ k ∧ k < i * mc + mc) → shs' k = shs k) →
      (∀ c, ¬(3 * i ≤ c ∧ c < 3 * i + 3) → clamped' c = clamped c) →
      (∀ j, j ≠ i → dL_dcolors' j = dL_dcolors j) →
      (∀ j, j ≠ i → scales' j = scales j) →
      (∀ j, j ≠ i → uquats' j = uquats j) →
      (∀ k, ¬(6 * i ≤ k ∧ k < 6 * i + 6) → dL_dcov3Ds' k = dL_dcov3Ds k) →
      (∀ j, j < P → vis' j = vis j) →
      shForwardKernel P deg mc dirs' shs' vis' colors0 clamped0 =
        shForwardKernel P deg mc dirs shs vis colors0 clamped0 ∧
      shBackwardKernel P deg mc dirs' shs' vis' clamped' dL_dcolors' dL_ddirs0 dL_dshs0 =
        shBackwardKernel P deg mc dirs shs vis clamped dL_dcolors dL_ddirs0 dL_dshs0 ∧
      covForwardKernel P scales' uquats' vis' cov0 =
        covForwardKernel P scales uquats vis cov0 ∧
      covBackwardKernel P scales' uquats' vis' dL_dcov3Ds' dL_dscales0 dL_duquats0 =
        covBackwardKernel P scales uquats vis dL_dcov3Ds dL_dscales0 dL_duquats0) := by
  have hw1 : 1 ≤ writtenCount deg := by
    unfold writtenCount
    split_ifs <;> omega
  have hmc : 0 < mc := lt_of_lt_of_le hw1 hwc
  have hcond : ¬(i < P ∧ vis i = true) := by
    rintro ⟨h1, h2⟩
    rcases hmask with h | h
    · omega
    · rw [h] at h2
      exact Bool.false_ne_true h2
  refine ⟨?_, ?_, ?_, ?_, ?_, ?_, ?_, ?_⟩
  · exact if_neg hcond
  · intro c hc
    have hdiv : (3 * i + c) / 3 = i := by omega
    simp only [shForwardKernel, hdiv]
    exact if_neg hcond
  · exact if_neg (fun h => hcond ⟨h.1, h.2⟩)
  · intro k hk
    have hdiv : (i * mc + k) / mc = i := block_div hmc hk
    simp only [shBackwardKernel, hdiv]
    exact if_neg (fun h => hcond ⟨h.1, h.2.1⟩)
  · intro e he
    have hdiv : (6 * i + e) / 6 = i := by omega
    simp only [covForwardKernel, hdiv]
    exact if_neg hcond
  · exact if_neg hcond
  · exact if_neg hcond
  · intro dirs' shs' vis' clamped' dL_dcolors' scales' uquats' dL_dcov3Ds'
      hdirs hshs hcl hg hsc hq hd6 hvis
    have hne : ∀ j, j < P → vis j = true → j ≠ i := by
      intro j hj hv he
      rcases hmask with h | h
      · omega
      · rw [he, h] at hv
        exact Bool.false_ne_true hv
    have hblock : ∀ j, j ≠ i → ∀ k, k < writtenCount deg →
        shs' (j * mc + k) = shs (j * mc + k) := by
      intro j hj k hk
      exact hshs _ (block_disjoint hj (lt_of_lt_of_le hk hwc))
    refine ⟨?_, ?_, ?_, ?_⟩
    · refine Prod.ext ?_ ?_
      · funext j
        by_cases hj : j < P
        · simp only [shForwardKernel, hvis j hj]
          by_cases hv : vis j = true
          · have hji := hne j hj hv
            rw [if_pos ⟨hj, hv⟩, if_pos ⟨hj, hv⟩, hdirs j hji,
              computeColorFromSH_congr deg (dirs j) _ _ (hblock j hji)]
          · rw [if_neg (fun h => hv h.2), if_neg (fun h => hv h.2)]
        · simp only [shForwardKernel]
          rw [if_neg (fun h => hj h.1), if_neg (fun h => hj h.1)]
      · funext j
        by_cases hj : j / 3 < P
        · simp only [shForwardKernel, hvis _ hj]
          by_cases hv : vis (j / 3) = true
          · have hji := hne _ hj hv
            rw [if_pos ⟨hj, hv⟩, if_pos ⟨hj, hv⟩, hdirs _ hji,
              computeColorFromSH_congr deg (dirs (j / 3)) _ _ (hblock _ hji)]
          · rw [if_neg (fun h => hv h.2), if_neg (fun h => hv h.2)]
        · simp only [shForwardKernel]
          rw [if_neg (fun h => hj h.1), if_neg (fun h => hj h.1)]
    · refine Prod.ext ?_ ?_
      · funext j
        by_cases hj : j < P
        · simp only [shBackwardKernel, hvis j hj]
          by_cases hv : vis j = true
          · have hji := hne j hj hv
            rw [if_pos ⟨hj, hv⟩, if_pos ⟨hj, hv⟩, hdirs j hji, hg j hji,
              hcl (3 * j) (by omega), hcl (3 * j + 1) (by omega),
              hcl (3 * j + 2) (by omega),
              (computeColorFromSHBackward_congr deg (dirs j) _ _
                (clamped (3 * j), clamped (3 * j + 1), clamped (3 * j + 2))
                (dL_dcolors j) _ _ (hblock j hji)).1]
          · rw [if_neg (fun h => hv h.2), if_neg (fun h => hv h.2)]
        · simp only [shBackwardKernel]
          rw [if_neg (fun h => hj h.1), if_neg (fun h => hj h.1)]
      · funext j
        by_cases hj : j / mc < P
        · simp only [shBackwardKernel, hvis _ hj]
          by_cases hv : vis (j / mc) = true
          · by_cases hk : j % mc < writtenCount deg
            · have hji := hne _ hj hv
              rw [if_pos ⟨hj, hv, hk⟩, if_pos ⟨hj, hv, hk⟩, hdirs _ hji, hg _ hji,
                hcl (3 * (j / mc)) (by omega), hcl (3 * (j / mc) + 1) (by omega),
                hcl (3 * (j / mc) + 2) (by omega),
                (computeColorFromSHBackward_congr deg (dirs (j / mc)) _ _
                  (clamped (3 * (j / mc)), clamped (3 * (j / mc) + 1),
                    clamped (3 * (j / mc) + 2))
                  (dL_dcolors (j / mc)) _ _ (hblock _ hji)).2 _ hk]
            · rw [if_neg (fun h => hk h.2.2), if_neg (fun h => hk h.2.2)]
          · rw [if_neg (fun h => hv h.2.1), if_neg (fun h => hv h.2.1)]
        · simp only [shBackwardKernel]
          rw [if_neg (fun h => hj h.1), if_neg (fun h => hj h.1)]
    · funext j
      by_cases hj : j / 6 < P
      · simp only [covForwardKernel, hvis _ hj]
        by_cases hv : vis (j / 6) = true
        · have hji := hne _ hj hv
          rw [if_pos ⟨hj, hv⟩, if_pos ⟨hj, hv⟩, hsc _ hji, hq _ hji]
        · rw [if_neg (fun h => hv h.2), if_neg (fun h => hv h.2)]
      · simp only [covForwardKernel]
        rw [if_neg (fun h => hj h.1), if_neg (fun h => hj h.1)]
    · have hcov : ∀ j, j ≠ i → cov6At dL_dcov3Ds' j = cov6At dL_dcov3Ds j := by
        intro j hji
        simp only [cov6At]
        rw [hd6 (6 * j) (by omega), hd6 (6 * j + 1) (by omega),
          hd6 (6 * j + 2) (by omega), hd6 (6 * j + 3) (by omega),
          hd6 (6 * j + 4) (by omega), hd6 (6 * j + 5) (by omega)]
      refine Prod.ext ?_ ?_ <;>
      · funext j
        by_cases hj : j < P
        · simp only [covBackwardKernel, hvis _ hj]
          by_cases hv : vis j = true
          · have hji := hne _ hj hv
            rw [if_pos ⟨hj, hv⟩, if_pos ⟨hj, hv⟩, hsc _ hji, hq _ hji, hcov _ hji]
          · rw [if_neg (fun h => hv h.2), if_neg (fun h => hv h.2)]
        · simp only [covBackwardKernel]
          rw [if_neg (fun h => hj h.1), if_neg (fun h => hj h.1)]

/-- Witness for `kernels_bound_and_visibility_guard` at a concrete input
(`P = 1`, primitive 1 out of range). -/
theorem kernels_bound_and_visibility_guard_witness :
    writtenCount 0 ≤ 1 ∧ ((1 : ℕ) ≤ 1 ∨ (fun _ : ℕ => true) 1 = false) ∧
    (shForwardKernel 1 0 1 (fun _ => ⟨0, 0, 1⟩) (fun _ => ⟨1, 1, 1⟩)
      (fun _ => true) (fun _ => ⟨7, 7, 7⟩) (fun _ => true)).1 1 = ⟨7, 7, 7⟩ :=
  ⟨by decide, Or.inl (by decide),
    (kernels_bound_and_visibility_guard 1 0 1 (by decide)
      (fun _ => ⟨0, 0, 1⟩) (fun _ => ⟨1, 1, 1⟩) (fun _ => true)
      (fun _ => ⟨7, 7, 7⟩) (fun _ => true) (fun _ => true) (fun _ => ⟨1, 1, 1⟩)
      (fun _ => ⟨0, 0, 0⟩) (fun _ => ⟨0, 0, 0⟩) (fun _ => ⟨1, 1, 1⟩)
      (fun _ => ⟨1, 0, 0, 0⟩) (fun _ => 0) (fun _ => 0) (fun _ => ⟨0, 0, 0⟩)
      (fun _ => ⟨0, 0, 0, 0⟩) 1 (Or.inl (by decide))).1⟩

/-! ## Claim C9. -/

/-- C9: when `N = 0` no per-primitive work is issued by any of the four
entrypoints: the SH launches compute a zero-size grid
(`gridThreads 0 = 0`) and leave the caller's arrays untouched, and the
covariance hosts skip the launch and return their freshly allocated
zero tensors. -/
theorem kernels_empty_launch (deg mc : ℕ) (dirs shs : ℕ → Vec3)
    (vis : ℕ → Bool) (colors0 : ℕ → Vec3) (clamped0 : ℕ → Bool)
    (clamped : ℕ → Bool) (dL_dcolors : ℕ → Vec3)
    (dL_ddirs0 dL_dshs0 : ℕ → Vec3)
    (scales : ℕ → Vec3) (uquats : ℕ → Vec4) (dL_dcov3Ds : ℕ → ℚ) :
    gridThreads 0 = 0 ∧
    ComputeColorFromSHForwardCUDA 0 deg mc dirs shs vis colors0 clamped0 =
      (colors0, clamped0) ∧
    ComputeColorFromSHBackwardCUDA 0 deg mc dirs shs vis clamped dL_dcolors
      dL_ddirs0 dL_dshs0 = (dL_ddirs0, dL_dshs0) ∧
    computeCov3DForward 0 scales uquats vis = (fun _ => 0) ∧
    computeCov3DBackward 0 scales uquats vis dL_dcov3Ds =
      (fun _ => ⟨0, 0, 0⟩, fun _ => ⟨0, 0, 0, 0⟩) := by
    refine ⟨rfl, ?_, ?_, ?_, ?_⟩
    · refine Prod.ext ?_ ?_ <;>
      · funext j
        simp [ComputeColorFromSHForwardCUDA, shForwardKernel]
    · refine Prod.ext ?_ ?_ <;>
      · funext j
        simp [ComputeColorFromSHBackwardCUDA, shBackwardKernel]
    · simp [computeCov3DForward]
    · simp [computeCov3DBackward]

/-! ## Claim C10. -/

/-- C10: the covariance host entrypoints hand the kernels freshly
zero-initialized output tensors, so every output row of an invisible or
out-of-range primitive is exactly zero in the returned tensors. -/
theorem cov_hosts_zero_on_invisible (P : ℕ) (scales : ℕ → Vec3)
    (uquats : ℕ → Vec4) (vis : ℕ → Bool) (dL_dcov3Ds : ℕ → ℚ) :
    (∀ j, computeCov3DForward P scales uquats vis j =
      covForwardKernel P scales uquats vis (fun _ => 0) j) ∧
    (∀ j, P ≤ j / 6 ∨ vis (j / 6) = false →
      computeCov3DForward P scales uquats vis j = 0) ∧
    (∀ i, P ≤ i ∨ vis i = false →
      (computeCov3DBackward P scales uquats vis dL_dcov3Ds).1 i = ⟨0, 0, 0⟩ ∧
      (computeCov3DBackward P scales uquats vis dL_dcov3Ds).2 i = ⟨0, 0, 0, 0⟩) := by
  have hcond : ∀ i, (P ≤ i ∨ vis i = false) → ¬(i < P ∧ vis i = true) := by
    rintro i hm ⟨h1, h2⟩
    rcases hm with h | h
    · omega
    · rw [h] at h2
      exact Bool.false_ne_true h2
  refine ⟨?_, ?_, ?_⟩
  · intro j
    by_cases hP : P = 0
    · subst hP
      simp [computeCov3DForward, covForwardKernel]
    · simp [computeCov3DForward, hP]
  · intro j hm
    by_cases hP : P = 0
    · subst hP
      simp [computeCov3DForward]
    · simp only [computeCov3DForward, if_pos hP, covForwardKernel]
      rw [if_neg (hcond _ hm)]
  · intro i hm
    by_cases hP : P = 0
    · subst hP
      simp [computeCov3DBackward]
    · simp only [computeCov3DBackward, if_pos hP, covBackwardKernel]
      rw [if_neg (hcond _ hm), if_neg (hcond _ hm)]
      exact ⟨rfl, rfl⟩

/-- Witness for `cov_hosts_zero_on_invisible` at a concrete input. -/
theorem cov_hosts_zero_on_invisible_witness :
    ((1 : ℕ) ≤ 0 / 6 ∨ (fun n : ℕ => decide (n = 1)) (0 / 6) = false) ∧
    computeCov3DForward 1 (fun _ => ⟨1, 2, 3⟩) (fun _ => ⟨1, 0, 0, 0⟩)
      (fun n : ℕ => decide (n = 1)) 0 = 0 :=
  ⟨Or.inr (by decide),
    (cov_hosts_zero_on_invisible 1 (fun _ => ⟨1, 2, 3⟩) (fun _ => ⟨1, 0, 0, 0⟩)
      (fun n : ℕ => decide (n = 1)) (fun _ => 0)).2.1 0 (Or.inr (by decide))⟩

/-- Derivative of a function that agrees with the quartic interpolating its
five samples at `0,1,2,3,4` (flat divided-difference coefficients). -/
theorem hasDerivAt_flatfit (f : ℚ → ℚ) (x D : ℚ)
    (hf : ∀ t, f t =
      ((f 0 - 4 * f 1 + 6 * f 2 - 4 * f 3 + f 4) / 24) * t ^ 4 +
      ((-5 * f 0 + 18 * f 1 - 24 * f 2 + 14 * f 3 - 3 * f 4) / 12) * t ^ 3 +
      ((35 * f 0 - 104 * f 1 + 114 * f 2 - 56 * f 3 + 11 * f 4) / 24) * t ^ 2 +
      ((-25 * f 0 + 48 * f 1 - 36 * f 2 + 16 * f 3 - 3 * f 4) / 12) * t + f 0)
    (hD : D =
      4 * ((f 0 - 4 * f 1 + 6 * f 2 - 4 * f 3 + f 4) / 24) * x ^ 3 +
      3 * ((-5 * f 0 + 18 * f 1 - 24 * f 2 + 14 * f 3 - 3 * f 4) / 12) * x ^ 2 +
      2 * ((35 * f 0 - 104 * f 1 + 114 * f 2 - 56 * f 3 + 11 * f 4) / 24) * x +
      (-25 * f 0 + 48 * f 1 - 36 * f 2 + 16 * f 3 - 3 * f 4) / 12) :
    HasDerivAt f D x :=
  hasDerivAt_fit4 hf hD

/-- Each SH basis function is differentiable in the first direction
component, with derivative `shBasisDx`. -/
theorem shBasisFn_hasDerivAt_x (k : ℕ) (hk : k < 16) (x y z : ℚ) :
    HasDerivAt (fun t => shBasisFn ⟨t, y, z⟩ k) (shBasisDx ⟨x, y, z⟩ k) x := by
  interval_cases k <;>
    exact hasDerivAt_flatfit _ _ _
      (fun t => by simp only [shBasisFn]; ring)
      (by simp only [shBasisDx, shBasisFn]; ring)

/-- Each SH basis function is differentiable in the second direction
component, with derivative `shBasisDy`. -/
theorem shBasisFn_hasDerivAt_y (k : ℕ) (hk : k < 16) (x y z : ℚ) :
    HasDerivAt (fun t => shBasisFn ⟨x, t, z⟩ k) (shBasisDy ⟨x, y, z⟩ k) y := by
  interval_cases k <;>
    exact hasDerivAt_flatfit _ _ _
      (fun t => by simp only [shBasisFn]; ring)
      (by simp only [shBasisDy, shBasisFn]; ring)

/-- Each SH basis function is differentiable in the third direction
component, with derivative `shBasisDz`. -/
theorem shBasisFn_hasDerivAt_z (k : ℕ) (hk : k < 16) (x y z : ℚ) :
    HasDerivAt (fun t => shBasisFn ⟨x, y, t⟩ k) (shBasisDz ⟨x, y, z⟩ k) z := by
  interval_cases k <;>
    exact hasDerivAt_flatfit _ _ _
      (fun t => by simp only [shBasisFn]; ring)
      (by simp only [shBasisDz, shBasisFn]; ring)

/-- Structure eta for `Vec3`. -/
theorem Vec3.eta (v : Vec3) : Vec3.mk v.x v.y v.z = v := rfl

/-- The backward `dRGBdx` accumulator is the coefficient-weighted sum of
the basis-function `x`-partials over the consumed coefficients. -/
theorem shDRGBdx_get_eq_sum (deg : ℕ) (hdeg : deg ≤ 3) (dir : Vec3)
    (sh : ℕ → Vec3) (c : Fin 3) :
    (shDRGBdx deg dir sh).get c =
      ∑ k ∈ Finset.range ((deg + 1) ^ 2), shBasisDx dir k * (sh k).get c := by
  interval_cases deg <;> fin_cases c <;>
    simp [shDRGBdx, shBasisDx, Vec3.get, Finset.sum_range_succ]

/-- The backward `dRGBdy` accumulator is the coefficient-weighted sum of
the basis-function `y`-partials over the consumed coefficients. -/
theorem shDRGBdy_get_eq_sum (deg : ℕ) (hdeg : deg ≤ 3) (dir : Vec3)
    (sh : ℕ → Vec3) (c : Fin 3) :
    (shDRGBdy deg dir sh).get c =
      ∑ k ∈ Finset.range ((deg + 1) ^ 2), shBasisDy dir k * (sh k).get c := by
  interval_cases deg <;> fin_cases c <;>
    simp [shDRGBdy, shBasisDy, Vec3.get, Finset.sum_range_succ]

/-- The backward `dRGBdz` accumulator is the coefficient-weighted sum of
the basis-function `z`-partials over the consumed coefficients. -/
theorem shDRGBdz_get_eq_sum (deg : ℕ) (hdeg : deg ≤ 3) (dir : Vec3)
    (sh : ℕ → Vec3) (c : Fin 3) :
    (shDRGBdz deg dir sh).get c =
      ∑ k ∈ Finset.range ((deg + 1) ^ 2), shBasisDz dir k * (sh k).get c := by
  interval_cases deg <;> fin_cases c <;>
    simp [shDRGBdz, shBasisDz, Vec3.get, Finset.sum_range_succ]

/-! ## Claim C1. -/

set_option maxHeartbeats 1000000 in
/-- C1: the SH backward pass first masks the incoming color gradient with
the clamp mask (factor 0 on clamped channels, 1 otherwise); it writes for
each consumed coefficient `k < (deg+1)^2` the basis-function value at the
stored direction times the masked gradient, leaves the coefficient slots of
bands beyond `deg` unwritten, and writes as direction gradient the exact
partial derivatives of the forward SH polynomial w.r.t. the three direction
components (proved as `HasDerivAt` facts) dotted with the masked gradient
and coefficients. -/
theorem sh_backward_exact (deg : ℕ) (hdeg : deg ≤ 3) (dir : Vec3)
    (sh : ℕ → Vec3) (m : Bool × Bool × Bool) (g : Vec3) (init : ℕ → Vec3) :
    (∀ k, k < (deg + 1) ^ 2 →
      (computeColorFromSHBackward deg dir sh m g init).2 k =
        shBasisFn dir k • Vec3.mk (g.x * (if m.1 then 0 else 1)) (g.y * (if m.2.1 then 0 else 1)) (g.z * (if m.2.2 then 0 else 1))) ∧
    (∀ k, (deg + 1) ^ 2 ≤ k →
      (computeColorFromSHBackward deg dir sh m g init).2 k = init k) ∧
    ((computeColorFromSHBackward deg dir sh m g init).1 =
      Vec3.mk ((shDRGBdx deg dir sh).dot (Vec3.mk (g.x * (if m.1 then 0 else 1)) (g.y * (if m.2.1 then 0 else 1)) (g.z * (if m.2.2 then 0 else 1))))
        ((shDRGBdy deg dir sh).dot (Vec3.mk (g.x * (if m.1 then 0 else 1)) (g.y * (if m.2.1 then 0 else 1)) (g.z * (if m.2.2 then 0 else 1))))
        ((shDRGBdz deg dir sh).dot (Vec3.mk (g.x * (if m.1 then 0 else 1)) (g.y * (if m.2.1 then 0 else 1)) (g.z * (if m.2.2 then 0 else 1))))) ∧
    (∀ c : Fin 3, HasDerivAt (fun t => (shRaw deg ⟨t, dir.y, dir.z⟩ sh).get c)
      ((shDRGBdx deg dir sh).get c) dir.x) ∧
    (∀ c : Fin 3, HasDerivAt (fun t => (shRaw deg ⟨dir.x, t, dir.z⟩ sh).get c)
      ((shDRGBdy deg dir sh).get c) dir.y) ∧
    (∀ c : Fin 3, HasDerivAt (fun t => (shRaw deg ⟨dir.x, dir.y, t⟩ sh).get c)
      ((shDRGBdz deg dir sh).get c) dir.z) := by
  have hb : (deg + 1) ^ 2 ≤ 16 := by interval_cases deg <;> norm_num
  have hwc : writtenCount deg = (deg + 1) ^ 2 := by interval_cases deg <;> rfl
  refine ⟨?_, ?_, rfl, ?_, ?_, ?_⟩
  · intro k hk
    simp only [computeColorFromSHBackward, hwc, if_pos hk]
  · intro k hk
    simp only [computeColorFromSHBackward, hwc,
      if_neg (by omega : ¬ k < (deg + 1) ^ 2)]
  · intro c
    have hfun : (fun t => (shRaw deg ⟨t, dir.y, dir.z⟩ sh).get c) =
        fun t => 0.5 + ∑ k ∈ Finset.range ((deg + 1) ^ 2),
          shBasisFn ⟨t, dir.y, dir.z⟩ k * (sh k).get c := by
      funext t
      rw [shRaw_eq_basis_sum deg hdeg]
      fin_cases c <;> simp [Vec3.get]
    rw [hfun]
    have hsum : HasDerivAt (fun t => ∑ k ∈ Finset.range ((deg + 1) ^ 2),
        shBasisFn ⟨t, dir.y, dir.z⟩ k * (sh k).get c)
        (∑ k ∈ Finset.range ((deg + 1) ^ 2),
          shBasisDx ⟨dir.x, dir.y, dir.z⟩ k * (sh k).get c) dir.x :=
      HasDerivAt.sum (fun k hkm =>
        (shBasisFn_hasDerivAt_x k
          (lt_of_lt_of_le (Finset.mem_range.mp hkm) hb)
          dir.x dir.y dir.z).mul_const _)
    have hval : (shDRGBdx deg dir sh).get c =
        ∑ k ∈ Finset.range ((deg + 1) ^ 2),
          shBasisDx ⟨dir.x, dir.y, dir.z⟩ k * (sh k).get c := by
      rw [Vec3.eta]
      exact shDRGBdx_get_eq_sum deg hdeg dir sh c
    rw [hval]
    exact hsum.const_add (0.5 : ℚ)
  · intro c
    have hfun : (fun t => (shRaw deg ⟨dir.x, t, dir.z⟩ sh).get c) =
        fun t => 0.5 + ∑ k ∈ Finset.range ((deg + 1) ^ 2),
          shBasisFn ⟨dir.x, t, dir.z⟩ k * (sh k).get c := by
      funext t
      rw [shRaw_eq_basis_sum deg hdeg]
      fin_cases c <;> simp [Vec3.get]
    rw [hfun]
    have hsum : HasDerivAt (fun t => ∑ k ∈ Finset.range ((deg + 1) ^ 2),
        shBasisFn ⟨dir.x, t, dir.z⟩ k * (sh k).get c)
        (∑ k ∈ Finset.range ((deg + 1) ^ 2),
          shBasisDy ⟨dir.x, dir.y, dir.z⟩ k * (sh k).get c) dir.y :=
      HasDerivAt.sum (fun k hkm =>
        (shBasisFn_hasDerivAt_y k
          (lt_of_lt_of_le (Finset.mem_range.mp hkm) hb)
          dir.x dir.y dir.z).mul_const _)
    have hval : (shDRGBdy deg dir sh).get c =
        ∑ k ∈ Finset.range ((deg + 1) ^ 2),
          shBasisDy ⟨dir.x, dir.y, dir.z⟩ k * (sh k).get c := by
      rw [Vec3.eta]
      exact shDRGBdy_get_eq_sum deg hdeg dir sh c
    rw [hval]
    exact hsum.const_add (0.5 : ℚ)
  · intro c
    have hfun : (fun t => (shRaw deg ⟨dir.x, dir.y, t⟩ sh).get c) =
        fun t => 0.5 + ∑ k ∈ Finset.range ((deg + 1) ^ 2),
          shBasisFn ⟨dir.x, dir.y, t⟩ k * (sh k).get c := by
      funext t
      rw [shRaw_eq_basis_sum deg hdeg]
      fin_cases c <;> simp [Vec3.get]
    rw [hfun]
    have hsum : HasDerivAt (fun t => ∑ k ∈ Finset.range ((deg + 1) ^ 2),
        shBasisFn ⟨dir.x, dir.y, t⟩ k * (sh k).get c)
        (∑ k ∈ Finset.range ((deg + 1) ^ 2),
          shBasisDz ⟨dir.x, dir.y, dir.z⟩ k * (sh k).get c) dir.z :=
      HasDerivAt.sum (fun k hkm =>
        (shBasisFn_hasDerivAt_z k
          (lt_of_lt_of_le (Finset.mem_range.mp hkm) hb)
          dir.x dir.y dir.z).mul_const _)
    have hval : (shDRGBdz deg dir sh).get c =
        ∑ k ∈ Finset.range ((deg + 1) ^ 2),
          shBasisDz ⟨dir.x, dir.y, dir.z⟩ k * (sh k).get c := by
      rw [Vec3.eta]
      exact shDRGBdz_get_eq_sum deg hdeg dir sh c
    rw [hval]
    exact hsum.const_add (0.5 : ℚ)

/-- Witness for `sh_backward_exact` at a concrete input. -/
theorem sh_backward_exact_witness :
    (1 : ℕ) ≤ 3 ∧ (0 : ℕ) < (1 + 1) ^ 2 ∧
    (computeColorFromSHBackward 1 ⟨0, 0, 1⟩ (fun _ => ⟨1, 1, 1⟩)
        (false, true, false) ⟨2, 3, 4⟩ (fun _ => ⟨0, 0, 0⟩)).2 0 =
      shBasisFn ⟨0, 0, 1⟩ 0 • Vec3.mk ((2 : ℚ) * (if false then 0 else 1))
        ((3 : ℚ) * (if true then 0 else 1)) ((4 : ℚ) * (if false then 0 else 1)) :=
  ⟨by decide, by decide,
    (sh_backward_exact 1 (by decide) ⟨0, 0, 1⟩ (fun _ => ⟨1, 1, 1⟩)
      (false, true, false) ⟨2, 3, 4⟩ (fun _ => ⟨0, 0, 0⟩)).1 0 (by decide)⟩






/-! ## Covariance forward: relation to the standard-formula matrices. -/

/-- The six stored entries are exactly the upper triangle of
`(R S)(R S)ᵀ = R S² Rᵀ` with `R` the standard scalar-first rotation matrix. -/
theorem compute_cov3d_forward_eq_covCode (s : Vec3) (q : Vec4) (e : Fin 6) :
    (compute_cov3d_forward s q).get e.val = upper6 (covCodeMatrix s q) e := by
  fin_cases e <;>
    simp [compute_cov3d_forward, Cov6.get, upper6, covCodeMatrix, stdRotMatrix,
      scaleDiagMatrix, scale_vector_to_matrix, unit_quaternion_to_rotmatrix,
      Mat3.mul, Mat3.transpose, Mat3.mulVec, Vec3.dot, Matrix.transpose_apply,
      Matrix.vecHead, Matrix.vecTail,
      Matrix.mul_apply, Fin.sum_univ_three]

/-! ## Claim C2. -/

/-- C2 (counterexample): at scale (1,2,3) and unit quaternion
(3/5, 0, 0, 4/5), the entry `cov3D[1]` written by the forward pass is
`504/625`, whereas the upper triangle of `Sigma = M^T * M` with
`M = S * R_std` (the claim's formula) has `-504/625` at position 01. -/
theorem cov_forward_claimC2_counterexample :
    (compute_cov3d_forward ⟨1, 2, 3⟩ ⟨3/5, 0, 0, 4/5⟩).get 1 ≠
      upper6 (covClaimMatrix ⟨1, 2, 3⟩ ⟨3/5, 0, 0, 4/5⟩) 1 := by
  simp only [compute_cov3d_forward, Cov6.get, upper6, covClaimMatrix, stdRotMatrix,
    scaleDiagMatrix, scale_vector_to_matrix, unit_quaternion_to_rotmatrix,
    Mat3.mul_def, Mat3.mul, Mat3.transpose, Mat3.mulVec, Vec3.dot,
    Matrix.transpose_apply, Matrix.mul_apply, Fin.sum_univ_three]
  norm_num [Matrix.vecHead, Matrix.vecTail]

/-- C2 (amended): for every visible in-range primitive, the covariance
forward pass writes the six entries [00,01,02,11,12,22] of the upper
triangle of `Sigma = M * M^T`, where `M = R * S` (equivalently
`Sigma = R * S^2 * R^T`), `S` the diagonal matrix of the scale vector and
`R` the standard scalar-first quaternion-to-rotation matrix.  (The glm
column-major code stores the transpose of the standard matrix, so relative
to the claim the roles of `R` and `R^T` are exchanged.) -/
theorem cov_forward_writes_upper_RSSR (P : ℕ) (scales : ℕ → Vec3)
    (uquats : ℕ → Vec4) (vis : ℕ → Bool) (cov0 : ℕ → ℚ) (i : ℕ)
    (hi : i < P) (hv : vis i = true) (e : Fin 6) :
    covForwardKernel P scales uquats vis cov0 (6 * i + e.val) =
      upper6 (covCodeMatrix (scales i) (uquats i)) e := by
  have he := e.isLt
  have h1 : (6 * i + e.val) / 6 = i := by omega
  have h2 : (6 * i + e.val) % 6 = e.val := by omega
  rw [covForwardKernel, h1, h2, if_pos ⟨hi, hv⟩]
  exact compute_cov3d_forward_eq_covCode (scales i) (uquats i) e

/-- Witness for `cov_forward_writes_upper_RSSR` at a concrete input. -/
theorem cov_forward_writes_upper_RSSR_witness :
    0 < 1 ∧ (fun _ : ℕ => true) 0 = true ∧
    covForwardKernel 1 (fun _ => ⟨1, 2, 3⟩) (fun _ => ⟨3/5, 0, 0, 4/5⟩)
        (fun _ => true) (fun _ => 0) (6 * 0 + (1 : Fin 6).val) =
      upper6 (covCodeMatrix ⟨1, 2, 3⟩ ⟨3/5, 0, 0, 4/5⟩) 1 :=
  ⟨by decide, rfl,
    cov_forward_writes_upper_RSSR 1 (fun _ => ⟨1, 2, 3⟩) (fun _ => ⟨3/5, 0, 0, 4/5⟩)
      (fun _ => true) (fun _ => 0) 0 (by decide) rfl 1⟩

/-! ## Claim C5. -/

/-- C5: for every scale vector and quaternion (unit or not), the symmetric
matrix reconstructed from the six entries written by the covariance forward
pass is of the form `B^T * B`, hence positive semi-definite with all
eigenvalues non-negative. -/
theorem cov_forward_psd (s : Vec3) (q : Vec4) :
    (∃ B : Matrix (Fin 3) (Fin 3) ℚ,
        reconstructCov (compute_cov3d_forward s q) = B.transpose * B) ∧
    ∃ hH : ((reconstructCov (compute_cov3d_forward s q)).map
        (fun a : ℚ => (a : ℝ))).IsHermitian,
      ((reconstructCov (compute_cov3d_forward s q)).map
        (fun a : ℚ => (a : ℝ))).PosSemidef ∧
      ∀ i, 0 ≤ hH.eigenvalues i := by
  have key : reconstructCov (compute_cov3d_forward s q) =
      ((stdRotMatrix q * scaleDiagMatrix s).transpose).transpose *
        (stdRotMatrix q * scaleDiagMatrix s).transpose := by
    ext i j
    fin_cases i <;> fin_cases j <;>
      simp [reconstructCov, compute_cov3d_forward, stdRotMatrix, scaleDiagMatrix,
        scale_vector_to_matrix, unit_quaternion_to_rotmatrix,
        Mat3.mul, Mat3.transpose, Mat3.mulVec, Vec3.dot, Matrix.transpose_apply,
        Matrix.vecHead, Matrix.vecTail, Matrix.mul_apply, Fin.sum_univ_three] <;>
      ring
  set B : Matrix (Fin 3) (Fin 3) ℚ := (stdRotMatrix q * scaleDiagMatrix s).transpose with hB
  have hmap : (reconstructCov (compute_cov3d_forward s q)).map (fun a : ℚ => (a : ℝ)) =
      (B.map (fun a : ℚ => (a : ℝ))).conjTranspose * B.map (fun a : ℚ => (a : ℝ)) := by
    rw [key]
    ext i j
    simp only [Matrix.mul_apply, Matrix.map_apply, Matrix.conjTranspose_apply,
      Matrix.transpose_apply, Fin.sum_univ_three, star_trivial]
    push_cast
    ring
  have hpsd : ((reconstructCov (compute_cov3d_forward s q)).map
      (fun a : ℚ => (a : ℝ))).PosSemidef := by
    rw [hmap]
    exact Matrix.posSemidef_conjTranspose_mul_self _
  exact ⟨⟨B, key⟩, hpsd.1, hpsd, fun i => hpsd.eigenvalues_nonneg i⟩

/-! ## Claim C3. -/

set_option maxHeartbeats 1000000 in
/-- Directional derivative of the linear functional `dot6 d` composed with
the covariance forward pass, along an arbitrary direction `(hs, hq)` in
scale-quaternion space.  The derivative value is the hand-applied product
rule over the structured form `Sigma[c][r] = sum_i s_i^2 R[c]_i R[r]_i`. -/
theorem hasDerivAt_dot6_cov (s : Vec3) (q : Vec4) (hs : Vec3) (hq : Vec4) (d : Cov6) :
    HasDerivAt (fun t => dot6 d (compute_cov3d_forward
        ⟨s.x + t * hs.x, s.y + t * hs.y, s.z + t * hs.z⟩
        ⟨q.x + t * hq.x, q.y + t * hq.y, q.z + t * hq.z, q.w + t * hq.w⟩))
      (let a0 := 1 - 2*(q.z*q.z + q.w*q.w)
       let a1 := 2*(q.y*q.z - q.x*q.w)
       let a2 := 2*(q.y*q.w + q.x*q.z)
       let b0 := 2*(q.y*q.z + q.x*q.w)
       let b1 := 1 - 2*(q.y*q.y + q.w*q.w)
       let b2 := 2*(q.z*q.w - q.x*q.y)
       let c0 := 2*(q.y*q.w - q.x*q.z)
       let c1 := 2*(q.z*q.w + q.x*q.y)
       let c2 := 1 - 2*(q.y*q.y + q.z*q.z)
       let da0 := -(4*(q.z*hq.z + q.w*hq.w))
       let da1 := 2*(hq.y*q.z + q.y*hq.z - hq.x*q.w - q.x*hq.w)
       let da2 := 2*(hq.y*q.w + q.y*hq.w + hq.x*q.z + q.x*hq.z)
       let db0 := 2*(hq.y*q.z + q.y*hq.z + hq.x*q.w + q.x*hq.w)
       let db1 := -(4*(q.y*hq.y + q.w*hq.w))
       let db2 := 2*(hq.z*q.w + q.z*hq.w - hq.x*q.y - q.x*hq.y)
       let dc0 := 2*(hq.y*q.w + q.y*hq.w - hq.x*q.z - q.x*hq.z)
       let dc1 := 2*(hq.z*q.w + q.z*hq.w + hq.x*q.y + q.x*hq.y)
       let dc2 := -(4*(q.y*hq.y + q.z*hq.z))
       d.e0 * (2*s.x*hs.x*(a0*a0) + s.x*s.x*(da0*a0 + a0*da0) +
               2*s.y*hs.y*(a1*a1) + s.y*s.y*(da1*a1 + a1*da1) +
               2*s.z*hs.z*(a2*a2) + s.z*s.z*(da2*a2 + a2*da2)) +
       d.e1 * (2*s.x*hs.x*(a0*b0) + s.x*s.x*(da0*b0 + a0*db0) +
               2*s.y*hs.y*(a1*b1) + s.y*s.y*(da1*b1 + a1*db1) +
               2*s.z*hs.z*(a2*b2) + s.z*s.z*(da2*b2 + a2*db2)) +
       d.e2 * (2*s.x*hs.x*(a0*c0) + s.x*s.x*(da0*c0 + a0*dc0) +
               2*s.y*hs.y*(a1*c1) + s.y*s.y*(da1*c1 + a1*dc1) +
               2*s.z*hs.z*(a2*c2) + s.z*s.z*(da2*c2 + a2*dc2)) +
       d.e3 * (2*s.x*hs.x*(b0*b0) + s.x*s.x*(db0*b0 + b0*db0) +
               2*s.y*hs.y*(b1*b1) + s.y*s.y*(db1*b1 + b1*db1) +
               2*s.z*hs.z*(b2*b2) + s.z*s.z*(db2*b2 + b2*db2)) +
       d.e4 * (2*s.x*hs.x*(b0*c0) + s.x*s.x*(db0*c0 + b0*dc0) +
               2*s.y*hs.y*(b1*c1) + s.y*s.y*(db1*c1 + b1*dc1) +
               2*s.z*hs.z*(b2*c2) + s.z*s.z*(db2*c2 + b2*dc2)) +
       d.e5 * (2*s.x*hs.x*(c0*c0) + s.x*s.x*(dc0*c0 + c0*dc0) +
               2*s.y*hs.y*(c1*c1) + s.y*s.y*(dc1*c1 + c1*dc1) +
               2*s.z*hs.z*(c2*c2) + s.z*s.z*(dc2*c2 + c2*dc2))) 0 := by
  have hSX : HasDerivAt (fun t : ℚ => s.x + t * hs.x) (1 * hs.x) 0 :=
    ((hasDerivAt_id' (0 : ℚ)).mul_const hs.x).const_add s.x
  have hSY : HasDerivAt (fun t : ℚ => s.y + t * hs.y) (1 * hs.y) 0 :=
    ((hasDerivAt_id' (0 : ℚ)).mul_const hs.y).const_add s.y
  have hSZ : HasDerivAt (fun t : ℚ => s.z + t * hs.z) (1 * hs.z) 0 :=
    ((hasDerivAt_id' (0 : ℚ)).mul_const hs.z).const_add s.z
  have hR : HasDerivAt (fun t : ℚ => q.x + t * hq.x) (1 * hq.x) 0 :=
    ((hasDerivAt_id' (0 : ℚ)).mul_const hq.x).const_add q.x
  have hX : HasDerivAt (fun t : ℚ => q.y + t * hq.y) (1 * hq.y) 0 :=
    ((hasDerivAt_id' (0 : ℚ)).mul_const hq.y).const_add q.y
  have hY : HasDerivAt (fun t : ℚ => q.z + t * hq.z) (1 * hq.z) 0 :=
    ((hasDerivAt_id' (0 : ℚ)).mul_const hq.z).const_add q.z
  have hZ : HasDerivAt (fun t : ℚ => q.w + t * hq.w) (1 * hq.w) 0 :=
    ((hasDerivAt_id' (0 : ℚ)).mul_const hq.w).const_add q.w
  have hA0 := (((hY.mul hY).add (hZ.mul hZ)).const_mul 2).const_sub 1
  have hA1 := ((hX.mul hY).sub (hR.mul hZ)).const_mul 2
  have hA2 := ((hX.mul hZ).add (hR.mul hY)).const_mul 2
  have hB0 := ((hX.mul hY).add (hR.mul hZ)).const_mul 2
  have hB1 := (((hX.mul hX).add (hZ.mul hZ)).const_mul 2).const_sub 1
  have hB2 := ((hY.mul hZ).sub (hR.mul hX)).const_mul 2
  have hC0 := ((hX.mul hZ).sub (hR.mul hY)).const_mul 2
  have hC1 := ((hY.mul hZ).add (hR.mul hX)).const_mul 2
  have hC2 := (((hX.mul hX).add (hY.mul hY)).const_mul 2).const_sub 1
  have hE0 := (((hSX.mul hSX).mul (hA0.mul hA0)).add
    ((hSY.mul hSY).mul (hA1.mul hA1))).add ((hSZ.mul hSZ).mul (hA2.mul hA2))
  have hE1 := (((hSX.mul hSX).mul (hA0.mul hB0)).add
    ((hSY.mul hSY).mul (hA1.mul hB1))).add ((hSZ.mul hSZ).mul (hA2.mul hB2))
  have hE2 := (((hSX.mul hSX).mul (hA0.mul hC0)).add
    ((hSY.mul hSY).mul (hA1.mul hC1))).add ((hSZ.mul hSZ).mul (hA2.mul hC2))
  have hE3 := (((hSX.mul hSX).mul (hB0.mul hB0)).add
    ((hSY.mul hSY).mul (hB1.mul hB1))).add ((hSZ.mul hSZ).mul (hB2.mul hB2))
  have hE4 := (((hSX.mul hSX).mul (hB0.mul hC0)).add
    ((hSY.mul hSY).mul (hB1.mul hC1))).add ((hSZ.mul hSZ).mul (hB2.mul hC2))
  have hE5 := (((hSX.mul hSX).mul (hC0.mul hC0)).add
    ((hSY.mul hSY).mul (hC1.mul hC1))).add ((hSZ.mul hSZ).mul (hC2.mul hC2))
  have hF := ((((((hE0.const_mul d.e0).add (hE1.const_mul d.e1)).add
    (hE2.const_mul d.e2)).add (hE3.const_mul d.e3)).add
    (hE4.const_mul d.e4)).add (hE5.const_mul d.e5))
  have h2 : HasDerivAt (fun t => dot6 d (compute_cov3d_forward
      ⟨s.x + t * hs.x, s.y + t * hs.y, s.z + t * hs.z⟩
      ⟨q.x + t * hq.x, q.y + t * hq.y, q.z + t * hq.z, q.w + t * hq.w⟩)) _ (0 : ℚ) :=
    hF.congr_of_eventuallyEq (Filter.Eventually.of_forall (fun t => by
      simp only [dot6, compute_cov3d_forward, scale_vector_to_matrix,
        unit_quaternion_to_rotmatrix, Mat3.mul_def, Mat3.mul, Mat3.mulVec,
        Mat3.transpose, Vec3.dot, Vec3.smul_x, Vec3.smul_y, Vec3.smul_z,
        Vec3.add_x, Vec3.add_y, Vec3.add_z]
      ring))
  convert h2 using 1
  simp only []
  ring

set_option maxHeartbeats 1000000 in
/-- C3: the covariance backward pass produces the exact chain-rule adjoints
of the forward pass: for every scale, quaternion (unit or not) and incoming
6-entry covariance gradient, each component of `dL_dscale` (resp.
`dL_dquat`) equals the derivative at `t = 0` of
`t ↦ dL_dcov3D ⬝ cov3D(scale + t eᵢ, quat)` (resp. the corresponding
quaternion-component perturbation), i.e. the exact partial derivative of
the loss through the forward map. -/
theorem cov_backward_exact_adjoint (s : Vec3) (q : Vec4) (d : Cov6) :
    HasDerivAt (fun t => dot6 d (compute_cov3d_forward ⟨s.x + t, s.y, s.z⟩ q))
      (compute_cov3_backward s q d).1.x 0 ∧
    HasDerivAt (fun t => dot6 d (compute_cov3d_forward ⟨s.x, s.y + t, s.z⟩ q))
      (compute_cov3_backward s q d).1.y 0 ∧
    HasDerivAt (fun t => dot6 d (compute_cov3d_forward ⟨s.x, s.y, s.z + t⟩ q))
      (compute_cov3_backward s q d).1.z 0 ∧
    HasDerivAt (fun t => dot6 d (compute_cov3d_forward s ⟨q.x + t, q.y, q.z, q.w⟩))
      (compute_cov3_backward s q d).2.x 0 ∧
    HasDerivAt (fun t => dot6 d (compute_cov3d_forward s ⟨q.x, q.y + t, q.z, q.w⟩))
      (compute_cov3_backward s q d).2.y 0 ∧
    HasDerivAt (fun t => dot6 d (compute_cov3d_forward s ⟨q.x, q.y, q.z + t, q.w⟩))
      (compute_cov3_backward s q d).2.z 0 ∧
    HasDerivAt (fun t => dot6 d (compute_cov3d_forward s ⟨q.x, q.y, q.z, q.w + t⟩))
      (compute_cov3_backward s q d).2.w 0 := by
  refine ⟨?_, ?_, ?_, ?_, ?_, ?_, ?_⟩
  · have h := hasDerivAt_dot6_cov s q ⟨1, 0, 0⟩ ⟨0, 0, 0, 0⟩ d
    have h2 : HasDerivAt (fun t => dot6 d (compute_cov3d_forward ⟨s.x + t, s.y, s.z⟩ q)) _ (0 : ℚ) :=
      h.congr_of_eventuallyEq
      (Filter.Eventually.of_forall (fun t => by
        simp only [dot6, compute_cov3d_forward, scale_vector_to_matrix,
          unit_quaternion_to_rotmatrix, Mat3.mul_def, Mat3.mul, Mat3.mulVec,
          Mat3.transpose, Vec3.dot, Vec3.smul_x, Vec3.smul_y, Vec3.smul_z,
          Vec3.add_x, Vec3.add_y, Vec3.add_z]
        ring))
    convert h2 using 1
    simp only [compute_cov3_backward, scale_vector_to_matrix,
      unit_quaternion_to_rotmatrix, Mat3.mul_def, Mat3.smul_def, Mat3.mul,
      Mat3.smul, Mat3.mulVec, Mat3.transpose, Vec3.dot, Vec3.smul_x, Vec3.smul_y,
      Vec3.smul_z, Vec3.add_x, Vec3.add_y, Vec3.add_z]
    ring
  · have h := hasDerivAt_dot6_cov s q ⟨0, 1, 0⟩ ⟨0, 0, 0, 0⟩ d
    have h2 : HasDerivAt (fun t => dot6 d (compute_cov3d_forward ⟨s.x, s.y + t, s.z⟩ q)) _ (0 : ℚ) :=
      h.congr_of_eventuallyEq
      (Filter.Eventually.of_forall (fun t => by
        simp only [dot6, compute_cov3d_forward, scale_vector_to_matrix,
          unit_quaternion_to_rotmatrix, Mat3.mul_def, Mat3.mul, Mat3.mulVec,
          Mat3.transpose, Vec3.dot, Vec3.smul_x, Vec3.smul_y, Vec3.smul_z,
          Vec3.add_x, Vec3.add_y, Vec3.add_z]
        ring))
    convert h2 using 1
    simp only [compute_cov3_backward, scale_vector_to_matrix,
      unit_quaternion_to_rotmatrix, Mat3.mul_def, Mat3.smul_def, Mat3.mul,
      Mat3.smul, Mat3.mulVec, Mat3.transpose, Vec3.dot, Vec3.smul_x, Vec3.smul_y,
      Vec3.smul_z, Vec3.add_x, Vec3.add_y, Vec3.add_z]
    ring
  · have h := hasDerivAt_dot6_cov s q ⟨0, 0, 1⟩ ⟨0, 0, 0, 0⟩ d
    have h2 : HasDerivAt (fun t => dot6 d (compute_cov3d_forward ⟨s.x, s.y, s.z + t⟩ q)) _ (0 : ℚ) :=
      h.congr_of_eventuallyEq
      (Filter.Eventually.of_forall (fun t => by
        simp only [dot6, compute_cov3d_forward, scale_vector_to_matrix,
          unit_quaternion_to_rotmatrix, Mat3.mul_def, Mat3.mul, Mat3.mulVec,
          Mat3.transpose, Vec3.dot, Vec3.smul_x, Vec3.smul_y, Vec3.smul_z,
          Vec3.add_x, Vec3.add_y, Vec3.add_z]
        ring))
    convert h2 using 1
    simp only [compute_cov3_backward, scale_vector_to_matrix,
      unit_quaternion_to_rotmatrix, Mat3.mul_def, Mat3.smul_def, Mat3.mul,
      Mat3.smul, Mat3.mulVec, Mat3.transpose, Vec3.dot, Vec3.smul_x, Vec3.smul_y,
      Vec3.smul_z, Vec3.add_x, Vec3.add_y, Vec3.add_z]
    ring
  · have h := hasDerivAt_dot6_cov s q ⟨0, 0, 0⟩ ⟨1, 0, 0, 0⟩ d
    have h2 : HasDerivAt (fun t => dot6 d (compute_cov3d_forward s ⟨q.x + t, q.y, q.z, q.w⟩)) _ (0 : ℚ) :=
      h.congr_of_eventuallyEq
      (Filter.Eventually.of_forall (fun t => by
        simp only [dot6, compute_cov3d_forward, scale_vector_to_matrix,
          unit_quaternion_to_rotmatrix, Mat3.mul_def, Mat3.mul, Mat3.mulVec,
          Mat3.transpose, Vec3.dot, Vec3.smul_x, Vec3.smul_y, Vec3.smul_z,
          Vec3.add_x, Vec3.add_y, Vec3.add_z]
        ring))
    convert h2 using 1
    simp only [compute_cov3_backward, scale_vector_to_matrix,
      unit_quaternion_to_rotmatrix, Mat3.mul_def, Mat3.smul_def, Mat3.mul,
      Mat3.smul, Mat3.mulVec, Mat3.transpose, Vec3.dot, Vec3.smul_x, Vec3.smul_y,
      Vec3.smul_z, Vec3.add_x, Vec3.add_y, Vec3.add_z]
    ring
  · have h := hasDerivAt_dot6_cov s q ⟨0, 0, 0⟩ ⟨0, 1, 0, 0⟩ d
    have h2 : HasDerivAt (fun t => dot6 d (compute_cov3d_forward s ⟨q.x, q.y + t, q.z, q.w⟩)) _ (0 : ℚ) :=
      h.congr_of_eventuallyEq
      (Filter.Eventually.of_forall (fun t => by
        simp only [dot6, compute_cov3d_forward, scale_vector_to_matrix,
          unit_quaternion_to_rotmatrix, Mat3.mul_def, Mat3.mul, Mat3.mulVec,
          Mat3.transpose, Vec3.dot, Vec3.smul_x, Vec3.smul_y, Vec3.smul_z,
          Vec3.add_x, Vec3.add_y, Vec3.add_z]
        ring))
    convert h2 using 1
    simp only [compute_cov3_backward, scale_vector_to_matrix,
      unit_quaternion_to_rotmatrix, Mat3.mul_def, Mat3.smul_def, Mat3.mul,
      Mat3.smul, Mat3.mulVec, Mat3.transpose, Vec3.dot, Vec3.smul_x, Vec3.smul_y,
      Vec3.smul_z, Vec3.add_x, Vec3.add_y, Vec3.add_z]
    ring
  · have h := hasDerivAt_dot6_cov s q ⟨0, 0, 0⟩ ⟨0, 0, 1, 0⟩ d
    have h2 : HasDerivAt (fun t => dot6 d (compute_cov3d_forward s ⟨q.x, q.y, q.z + t, q.w⟩)) _ (0 : ℚ) :=
      h.congr_of_eventuallyEq
      (Filter.Eventually.of_forall (fun t => by
        simp only [dot6, compute_cov3d_forward, scale_vector_to_matrix,
          unit_quaternion_to_rotmatrix, Mat3.mul_def, Mat3.mul, Mat3.mulVec,
          Mat3.transpose, Vec3.dot, Vec3.smul_x, Vec3.smul_y, Vec3.smul_z,
          Vec3.add_x, Vec3.add_y, Vec3.add_z]
        ring))
    convert h2 using 1
    simp only [compute_cov3_backward, scale_vector_to_matrix,
      unit_quaternion_to_rotmatrix, Mat3.mul_def, Mat3.smul_def, Mat3.mul,
      Mat3.smul, Mat3.mulVec, Mat3.transpose, Vec3.dot, Vec3.smul_x, Vec3.smul_y,
      Vec3.smul_z, Vec3.add_x, Vec3.add_y, Vec3.add_z]
    ring
  · have h := hasDerivAt_dot6_cov s q ⟨0, 0, 0⟩ ⟨0, 0, 0, 1⟩ d
    have h2 : HasDerivAt (fun t => dot6 d (compute_cov3d_forward s ⟨q.x, q.y, q.z, q.w + t⟩)) _ (0 : ℚ) :=
      h.congr_of_eventuallyEq
      (Filter.Eventually.of_forall (fun t => by
        simp only [dot6, compute_cov3d_forward, scale_vector_to_matrix,
          unit_quaternion_to_rotmatrix, Mat3.mul_def, Mat3.mul, Mat3.mulVec,
          Mat3.transpose, Vec3.dot, Vec3.smul_x, Vec3.smul_y, Vec3.smul_z,
          Vec3.add_x, Vec3.add_y, Vec3.add_z]
        ring))
    convert h2 using 1
    simp only [compute_cov3_backward, scale_vector_to_matrix,
      unit_quaternion_to_rotmatrix, Mat3.mul_def, Mat3.smul_def, Mat3.mul,
      Mat3.smul, Mat3.mulVec, Mat3.transpose, Vec3.dot, Vec3.smul_x, Vec3.smul_y,
      Vec3.smul_z, Vec3.add_x, Vec3.add_y, Vec3.add_z]
    ring

end MSplat
